import Mathlib

/-!
# ViroRenderer: render pass of `VROScene` and the node-scoped animation adapter

A shallow embedding of

* `VROScene::render` (`ViroRenderer/VROScene.cpp`, lines 41-104): the single
  linear pass over the sorted key list that rebinds shader, lights and
  material properties only when they change and then draws the element;
* `VROScene::renderBackground`, `VROScene::updateSortKeys` and
  `VROScene::renderStencil` (same file), as far as their thread assertion, the
  calls they make and the key list they leave are concerned;
* `VROExecutableNodeAnimation` (`ViroRenderer/VROExecutableNodeAnimation.h`):
  the adapter that runs an inner animation on a weakly referenced node;
* the data members of `VROMaterial` (`ViroRenderer/VROMaterial.h`) and its
  transparency setter.

Calls that leave the function (`material->bindShader`, `material->bindLights`,
`material->bindProperties`, `driver->setPortalStencilRefBits`, `node->render`)
are recorded, in order, in a trace.  Pointers are modelled by values or by
`Option` (a null pointer is `none`); dereferencing a null pointer is a fault.
The debug-only statements (`pglpush`, `pglpop`, `pinfo` under
`kDebugSortOrder`) issue no call of the above kinds and are left out.
-/

set_option linter.unusedVariables false

namespace Viro

/-! ## Data model -/

/-- The value `UINT32_MAX` of `<cstdint>`. -/
def UINT32_MAX : Nat := 4294967295

/-- Identity of a light: a `std::shared_ptr<VROLight>`, which C++ compares by
address. -/
abbrev VROLight := Nat

/-- The enum `VROLightingModel` of `VROMaterial.h`. -/
inductive VROLightingModel where
  | Phong
  | Blinn
  | Lambert
  | Constant
deriving DecidableEq, Repr

/-- A material object (`VROMaterial`), reduced to the parts the render pass
reads: its identity, its `_lightingModel`, and its `_outgoing` pointer.
`solid` is a material whose `_outgoing` is null, `fading` one whose
`_outgoing` points to the material being animated away. -/
inductive VROMaterial where
  | solid (ident : Nat) (lightingModel : VROLightingModel)
  | fading (ident : Nat) (lightingModel : VROLightingModel) (outgoing : VROMaterial)
deriving DecidableEq, Repr

/-- The getter `VROMaterial::getLightingModel`. -/
def VROMaterial.getLightingModel : VROMaterial → VROLightingModel
  | .solid _ lightingModel => lightingModel
  | .fading _ lightingModel _ => lightingModel

/-- Modelled from the spec: `VROMaterial::getOutgoing` is called by
`VROScene::render` but is not declared in the `VROMaterial.h` at hand; it
yields the outgoing snapshot held in `_outgoing`, null when there is none. -/
def VROMaterial.getOutgoing : VROMaterial → Option VROMaterial
  | .solid _ _ => none
  | .fading _ _ outgoing => some outgoing

/-- A geometry: the ordered sequence of its elements, each given by the
material it maps to. -/
structure VROGeometry where
  materials : List VROMaterial
deriving DecidableEq, Repr

/-- Modelled from the spec: `VROGeometry::getMaterialForElement` is not among
the sources; each element maps to exactly one material, and an index without
an element yields the null pointer. -/
def VROGeometry.getMaterialForElement (geometry : VROGeometry) (elementIndex : Int) :
    Option VROMaterial :=
  if elementIndex < 0 then none else geometry.materials.get? elementIndex.toNat

/-- A node, as far as the render pass reads it: its geometry (possibly null)
and the light list computed for it by the traversal. -/
structure VRONode where
  geometry : Option VROGeometry
  computedLights : List VROLight
deriving DecidableEq, Repr

/-- The getter `VRONode::getGeometry`. -/
def VRONode.getGeometry (node : VRONode) : Option VROGeometry := node.geometry

/-- The getter `VRONode::getComputedLights`. -/
def VRONode.getComputedLights (node : VRONode) : List VROLight := node.computedLights

/-- The fields of `VROSortKey` that `VROScene::render` reads.  `shader`,
`material` and `lights` are the unsigned identifiers stored in the key. -/
structure VROSortKey where
  node : VRONode
  elementIndex : Int
  incoming : Bool
  shader : Nat
  material : Nat
  lights : Nat
  portalStencilBits : Nat
deriving DecidableEq, Repr

/-- The calls issued by the render pass, in the vocabulary of the driver
interface. -/
inductive DriverCall where
  | bindShader (material : VROMaterial)
  | bindLights (lightsHash : Nat) (lights : List VROLight) (material : VROMaterial)
  | bindProperties (material : VROMaterial)
  | setPortalStencilRefBits (bits : Nat)
  | render (node : VRONode) (elementIndex : Int) (material : VROMaterial)
deriving DecidableEq, Repr

/-- Ways in which a call can stop without completing. -/
inductive Fault where
  | threadAssertion
  | nullDereference
deriving DecidableEq, Repr

/-- Thread names of `VROThreadRestricted`. -/
inductive VROThreadName where
  | Undefined
  | Renderer
deriving DecidableEq, Repr

/-- Modelled from the spec: the macro `passert_thread` is not among the
sources; it holds exactly when the calling thread is the thread the object is
restricted to. -/
def passert_thread (restricted calling : VROThreadName) : Bool :=
  decide (calling = restricted)

/-- The local variables `boundShaderId`, `boundMaterialId` and `boundLights`
of `VROScene::render`. -/
structure BoundState where
  boundShaderId : Nat
  boundMaterialId : Nat
  boundLights : List VROLight
deriving DecidableEq, Repr

/-- The values the locals of `VROScene::render` are initialised with
(lines 46-48). -/
def BoundState.initial : BoundState :=
  { boundShaderId := UINT32_MAX, boundMaterialId := UINT32_MAX, boundLights := [] }

/-- A `float` value that the code only stores or passes along, kept as an
uninterpreted bit pattern. -/
abbrev FloatBits := Nat

/-- The calls issued while one key was processed. -/
structure KeyCalls where
  key : VROSortKey
  calls : List DriverCall
deriving DecidableEq, Repr

/-- A scene: the thread it is restricted to (set to `Renderer` by the
constructor), its key list `_keys`, and `_distanceOfFurthestObjectFromCamera`.
The root node is reached through calls only and is not part of the record. -/
structure VROScene where
  keys : List VROSortKey
  restrictedThread : VROThreadName := VROThreadName.Renderer
  distanceOfFurthestObjectFromCamera : FloatBits := 0
deriving DecidableEq, Repr

/-! ## `VROScene::render` -/

/-- Lines 60-63: the material variant a key is rendered with.  `none` is the
null pointer. -/
def resolveMaterial (geometry : VROGeometry) (key : VROSortKey) : Option VROMaterial :=
  match geometry.getMaterialForElement key.elementIndex with
  | none => none
  | some material => if !key.incoming then material.getOutgoing else some material

/-- The body of the loop of `VROScene::render` (lines 55-101), for one key,
from the bound state `st`: the bound state afterwards and the calls issued.
A null material is a fault: the source dereferences it for every call it
issues on the material and for the lighting model, and otherwise hands it to
`node->render`. -/
def renderKey (st : BoundState) (key : VROSortKey) : Except Fault (BoundState × List DriverCall) :=
  let node := key.node
  let elementIndex := key.elementIndex
  match node.getGeometry with
  | none => .ok (st, [])
  | some geometry =>
    match resolveMaterial geometry key with
    | none => .error Fault.nullDereference
    | some material =>
      -- Bind the new shader if it changed
      let (st1, calls1) :=
        if key.shader ≠ st.boundShaderId then
          ({ st with boundShaderId := key.shader, boundLights := node.getComputedLights },
            [DriverCall.bindShader material,
             DriverCall.bindLights key.lights node.getComputedLights material])
        else if st.boundLights ≠ node.getComputedLights then
          ({ st with boundLights := node.getComputedLights },
            [DriverCall.bindLights key.lights node.getComputedLights material])
        else
          (st, [])
      -- Bind material properties if they changed
      let (st2, calls2) :=
        if key.material ≠ st1.boundMaterialId then
          ({ st1 with boundMaterialId := key.material }, [DriverCall.bindProperties material])
        else
          (st1, [])
      -- Only render the material if there are lights, or if the material uses
      -- constant lighting
      let calls3 :=
        if !st2.boundLights.isEmpty || material.getLightingModel == VROLightingModel.Constant then
          [DriverCall.setPortalStencilRefBits key.portalStencilBits,
           DriverCall.render node elementIndex material]
        else
          []
      .ok (st2, calls1 ++ calls2 ++ calls3)

/-- The loop of `VROScene::render` (line 54) from a bound state: the final
bound state and, per key in order, the calls issued for it. -/
def renderKeys : BoundState → List VROSortKey → Except Fault (BoundState × List KeyCalls)
  | st, [] => .ok (st, [])
  | st, key :: rest =>
    match renderKey st key with
    | .error fault => .error fault
    | .ok (st1, calls) =>
      match renderKeys st1 rest with
      | .error fault => .error fault
      | .ok (st2, segments) => .ok (st2, { key := key, calls := calls } :: segments)

/-- The method `VROScene::render`, called on `thread`: the thread assertion,
then the loop from the initial bound state.  The result lists, per key in
order, the calls issued for it. -/
def VROScene.render (scene : VROScene) (thread : VROThreadName) : Except Fault (List KeyCalls) :=
  if !passert_thread scene.restrictedThread thread then
    .error Fault.threadAssertion
  else
    match renderKeys BoundState.initial scene.keys with
    | .error fault => .error fault
    | .ok (_, segments) => .ok segments

/-- The driver-call trace of a pass: the calls of all keys, in order. -/
def driverTrace (segments : List KeyCalls) : List DriverCall :=
  (segments.map KeyCalls.calls).flatten

/-! ### The three phases of the loop body -/

/-- Lines 66-81 of the loop body: shader and light binding. -/
def shaderPhase (st : BoundState) (key : VROSortKey) (material : VROMaterial) :
    BoundState × List DriverCall :=
  if key.shader ≠ st.boundShaderId then
    ({ st with boundShaderId := key.shader, boundLights := key.node.getComputedLights },
      [DriverCall.bindShader material,
       DriverCall.bindLights key.lights key.node.getComputedLights material])
  else if st.boundLights ≠ key.node.getComputedLights then
    ({ st with boundLights := key.node.getComputedLights },
      [DriverCall.bindLights key.lights key.node.getComputedLights material])
  else
    (st, [])

/-- Lines 84-87 of the loop body: material property binding. -/
def materialPhase (st : BoundState) (key : VROSortKey) (material : VROMaterial) :
    BoundState × List DriverCall :=
  if key.material ≠ st.boundMaterialId then
    ({ st with boundMaterialId := key.material }, [DriverCall.bindProperties material])
  else
    (st, [])

/-- Lines 92-100 of the loop body: the draw decision. -/
def drawPhase (st : BoundState) (key : VROSortKey) (material : VROMaterial) : List DriverCall :=
  if !st.boundLights.isEmpty || material.getLightingModel == VROLightingModel.Constant then
    [DriverCall.setPortalStencilRefBits key.portalStencilBits,
     DriverCall.render key.node key.elementIndex material]
  else
    []

/-- The calls of the shader and light phase (lines 66-81). -/
def shaderCalls (st : BoundState) (key : VROSortKey) (material : VROMaterial) : List DriverCall :=
  if key.shader ≠ st.boundShaderId then
    [DriverCall.bindShader material,
     DriverCall.bindLights key.lights key.node.getComputedLights material]
  else if st.boundLights ≠ key.node.getComputedLights then
    [DriverCall.bindLights key.lights key.node.getComputedLights material]
  else []

/-- The calls of the material phase (lines 84-87). -/
def materialCalls (st : BoundState) (key : VROSortKey) (material : VROMaterial) :
    List DriverCall :=
  if key.material ≠ st.boundMaterialId then [DriverCall.bindProperties material] else []

/-- The calls of the draw phase (lines 92-100), in terms of the node's own
computed lights. -/
def drawCalls (key : VROSortKey) (material : VROMaterial) : List DriverCall :=
  if key.node.getComputedLights ≠ [] ∨ material.getLightingModel = VROLightingModel.Constant then
    [DriverCall.setPortalStencilRefBits key.portalStencilBits,
     DriverCall.render key.node key.elementIndex material]
  else []

/-! ### Vocabulary for statements about a pass -/

/-- A `bindShader` call. -/
def isBindShader : DriverCall → Bool
  | .bindShader _ => true
  | _ => false

/-- A `bindLights` call. -/
def isBindLights : DriverCall → Bool
  | .bindLights _ _ _ => true
  | _ => false

/-- A `bindProperties` call. -/
def isBindProperties : DriverCall → Bool
  | .bindProperties _ => true
  | _ => false

/-- A `setPortalStencilRefBits` call. -/
def isSetPortalStencilRefBits : DriverCall → Bool
  | .setPortalStencilRefBits _ => true
  | _ => false

/-- A draw: a `node->render` call. -/
def isDraw : DriverCall → Bool
  | .render _ _ _ => true
  | _ => false

/-- The node of the key has a geometry. -/
def VROSortKey.hasGeometry (key : VROSortKey) : Bool := key.node.getGeometry.isSome

/-- The key can be processed without dereferencing a null material: its node
has no geometry, or the geometry yields a material variant for the key. -/
def VROSortKey.resolves (key : VROSortKey) : Bool :=
  match key.node.getGeometry with
  | none => true
  | some geometry => (resolveMaterial geometry key).isSome

/-- The shader id bound after the keys of `segments` were processed, read off
the calls: `UINT32_MAX` at first, afterwards the shader id of the last key at
which a shader was bound. -/
def shaderBoundAfter (segments : List KeyCalls) : Nat :=
  segments.foldl (fun bound seg => if seg.calls.any isBindShader then seg.key.shader else bound)
    UINT32_MAX

/-- The material id bound after the keys of `segments` were processed, read
off the calls: `UINT32_MAX` at first, afterwards the material id of the last
key at which material properties were bound. -/
def materialBoundAfter (segments : List KeyCalls) : Nat :=
  segments.foldl
    (fun bound seg => if seg.calls.any isBindProperties then seg.key.material else bound)
    UINT32_MAX

/-- The light set bound after the keys of `segments` were processed, read off
the calls: empty at first, afterwards the computed lights of the node of the
last key at which lights were bound. -/
def lightsBoundAfter (segments : List KeyCalls) : List VROLight :=
  segments.foldl
    (fun bound seg => if seg.calls.any isBindLights then seg.key.node.getComputedLights else bound)
    []

/-- Number of maximal runs of consecutive equal entries of a list. -/
def maximalRuns {α : Type} [DecidableEq α] : List α → Nat
  | [] => 0
  | [_] => 1
  | a :: b :: rest => (if a = b then 0 else 1) + maximalRuns (b :: rest)

/-- Number of adjacent pairs of a list whose two entries differ. -/
def adjacentDiffs {α : Type} [DecidableEq α] : List α → Nat
  | [] => 0
  | [_] => 0
  | a :: b :: rest => (if a = b then 0 else 1) + adjacentDiffs (b :: rest)

/-- The first key of a list whose node has a geometry. -/
def firstWithGeometry (keys : List VROSortKey) : Option VROSortKey :=
  keys.find? VROSortKey.hasGeometry

/-! ## `VROExecutableNodeAnimation` -/

/-- A `std::weak_ptr`: either it still refers to a live object, or it is
empty or its object has been destroyed. -/
inductive WeakPtr (α : Type) where
  | expired
  | live (target : α)
deriving DecidableEq, Repr

/-- The operation `std::weak_ptr::lock`: the object while it is alive,
otherwise the null pointer. -/
def WeakPtr.lock {α : Type} : WeakPtr α → Option α
  | .expired => none
  | .live target => some target

/-- Identity of an animation object behind a
`std::shared_ptr<VROExecutableAnimation>`. -/
abbrev AnimationId := Nat

/-- Identity of a completion callback (`std::function<void()>`). -/
abbrev Callback := Nat

/-- The virtual operations of `VROExecutableAnimation` that the adapter
invokes on its inner animation, with their arguments. -/
inductive AnimationCall where
  | copy
  | execute (node : VRONode) (onFinished : Callback)
  | pause
  | resume
  | terminate (jumpToEnd : Bool)
  | setDuration (durationSeconds : FloatBits)
  | getDuration
  | toString
deriving DecidableEq, Repr

/-- What an operation of the adapter does to the outside: a call on an
animation object, or the invocation of a callback. -/
inductive AnimationEffect where
  | call (target : AnimationId) (op : AnimationCall)
  | invoke (callback : Callback)
deriving DecidableEq, Repr

/-- The fields of `VROExecutableNodeAnimation`: the weak reference `_node`
and the shared pointer `_executableAnimation` (`none` when null). -/
structure VROExecutableNodeAnimation where
  _node : WeakPtr VRONode
  _executableAnimation : Option AnimationId
deriving DecidableEq, Repr

/-- The method `VROExecutableNodeAnimation::copy` (lines 30-39).
`innerCopy` is the pointer the inner animation's virtual `copy` returns.  The
result is the returned pointer (`none` when empty) and the effects. -/
def VROExecutableNodeAnimation.copy (self : VROExecutableNodeAnimation)
    (innerCopy : AnimationId → Option AnimationId) :
    Except Fault (Option VROExecutableNodeAnimation × List AnimationEffect) :=
  match self._node.lock with
  | some node =>
    match self._executableAnimation with
    | none => .error Fault.nullDereference
    | some executableAnimation =>
      let inner := innerCopy executableAnimation
      .ok (some { _node := WeakPtr.live node, _executableAnimation := inner },
           [AnimationEffect.call executableAnimation AnimationCall.copy])
  | none => .ok (none, [])

/-- The method `VROExecutableNodeAnimation::execute` (lines 41-46); the result
is the list of effects. -/
def VROExecutableNodeAnimation.execute (self : VROExecutableNodeAnimation)
    (ignoredNode : Option VRONode) (onFinished : Callback) :
    Except Fault (List AnimationEffect) :=
  match self._node.lock with
  | some node =>
    match self._executableAnimation with
    | none => .error Fault.nullDereference
    | some executableAnimation =>
      .ok [AnimationEffect.call executableAnimation (AnimationCall.execute node onFinished)]
  | none => .ok []

/-- A call on the inner animation that takes place whatever the state of
`_node` (the shape of lines 48-66). -/
def VROExecutableNodeAnimation.delegate (self : VROExecutableNodeAnimation)
    (op : AnimationCall) : Except Fault (List AnimationEffect) :=
  match self._executableAnimation with
  | none => .error Fault.nullDereference
  | some executableAnimation => .ok [AnimationEffect.call executableAnimation op]

/-- The method `VROExecutableNodeAnimation::pause` (lines 48-50). -/
def VROExecutableNodeAnimation.pause (self : VROExecutableNodeAnimation) :
    Except Fault (List AnimationEffect) :=
  self.delegate AnimationCall.pause

/-- The method `VROExecutableNodeAnimation::resume` (lines 51-53). -/
def VROExecutableNodeAnimation.resume (self : VROExecutableNodeAnimation) :
    Except Fault (List AnimationEffect) :=
  self.delegate AnimationCall.resume

/-- The method `VROExecutableNodeAnimation::terminate` (lines 54-56). -/
def VROExecutableNodeAnimation.terminate (self : VROExecutableNodeAnimation) (jumpToEnd : Bool) :
    Except Fault (List AnimationEffect) :=
  self.delegate (AnimationCall.terminate jumpToEnd)

/-- The method `VROExecutableNodeAnimation::setDuration` (lines 58-60). -/
def VROExecutableNodeAnimation.setDuration (self : VROExecutableNodeAnimation)
    (durationSeconds : FloatBits) : Except Fault (List AnimationEffect) :=
  self.delegate (AnimationCall.setDuration durationSeconds)

/-- The method `VROExecutableNodeAnimation::getDuration` (lines 61-63).
`innerDuration` is what the inner animation's `getDuration` returns. -/
def VROExecutableNodeAnimation.getDuration (self : VROExecutableNodeAnimation)
    (innerDuration : AnimationId → FloatBits) : Except Fault (FloatBits × List AnimationEffect) :=
  match self._executableAnimation with
  | none => .error Fault.nullDereference
  | some executableAnimation =>
    .ok (innerDuration executableAnimation,
         [AnimationEffect.call executableAnimation AnimationCall.getDuration])

/-! ## Scenes used as concrete inputs -/

/-- A material with Phong lighting and no outgoing snapshot. -/
def phongMaterial : VROMaterial := VROMaterial.solid 1 VROLightingModel.Phong

/-- A node with a one-element geometry of `phongMaterial`, lit by `lights`. -/
def litNode (lights : List VROLight) : VRONode :=
  { geometry := some { materials := [phongMaterial] }, computedLights := lights }

/-- A key for element 0 of `litNode lights`, incoming variant, with the given
shader and material ids. -/
def plainKey (shader material : Nat) (lights : List VROLight) : VROSortKey :=
  { node := litNode lights, elementIndex := 0, incoming := true, shader := shader,
    material := material, lights := 0, portalStencilBits := 0 }

/-- A scene whose only key carries the shader id `UINT32_MAX` and whose node is
lit by one light. -/
def sentinelScene : VROScene := { keys := [plainKey UINT32_MAX 0 [1]] }

/-- A scene of three keys on lit nodes: shaders 1, 1, 2, material 5 throughout. -/
def scenarioScene : VROScene :=
  { keys := [plainKey 1 5 [7], plainKey 1 5 [7], plainKey 2 5 [7]] }

/-- Modelled from the spec: `VROSortKey::operator<` is not among the sources.
Among opaque keys the order is by shader identity, then material identity,
then light-set identity; `opaqueLe a b` says that `a` does not come after `b`
in that order. -/
def VROSortKey.opaqueLe (a b : VROSortKey) : Bool :=
  decide (a.shader < b.shader) ||
    (decide (a.shader = b.shader) &&
      (decide (a.material < b.material) ||
        (decide (a.material = b.material) && decide (a.lights ≤ b.lights))))

/-- A key list is sorted, as a list of opaque keys, when no key comes after its
successor. -/
def sortedOpaque : List VROSortKey → Bool
  | [] => true
  | [_] => true
  | a :: b :: rest => VROSortKey.opaqueLe a b && sortedOpaque (b :: rest)

/-- Three keys on lit nodes, not sorted: shaders `UINT32_MAX`, `UINT32_MAX`, 0. -/
def unsortedSentinelScene : VROScene :=
  { keys := [plainKey UINT32_MAX 5 [7], plainKey UINT32_MAX 5 [7], plainKey 0 5 [7]] }

/-- An adapter whose node has been destroyed, wrapping the animation 3. -/
def deadAdapter : VROExecutableNodeAnimation :=
  { _node := WeakPtr.expired, _executableAnimation := some 3 }

/-- An adapter on the live node `litNode [1]`, wrapping the animation 3. -/
def liveAdapter : VROExecutableNodeAnimation :=
  { _node := WeakPtr.live (litNode [1]), _executableAnimation := some 3 }

/-- A material with constant lighting, in transition from a Lambert material. -/
def constantMaterial : VROMaterial :=
  VROMaterial.fading 2 VROLightingModel.Constant (VROMaterial.solid 3 VROLightingModel.Lambert)

/-- An unlit node with a one-element geometry of `constantMaterial`. -/
def unlitConstantNode : VRONode :=
  { geometry := some { materials := [constantMaterial] }, computedLights := [] }

/-- A scene of unlit and lit keys: the incoming (Constant) and the outgoing
(Lambert) variant of `constantMaterial` on an unlit node, a Phong material on
an unlit node, a node without geometry, and a Phong material on a lit node. -/
def drawScene : VROScene :=
  { keys :=
      [{ node := unlitConstantNode, elementIndex := 0, incoming := true, shader := 1,
         material := 2, lights := 0, portalStencilBits := 4 },
       { node := unlitConstantNode, elementIndex := 0, incoming := false, shader := 1,
         material := 3, lights := 0, portalStencilBits := 4 },
       plainKey 1 5 [],
       { node := { geometry := none, computedLights := [9] }, elementIndex := 0,
         incoming := true, shader := 6, material := 6, lights := 1, portalStencilBits := 0 },
       plainKey 1 5 [7]] }

/-- A scene of three keys with one shader and one material, on nodes lit by
light 7, light 8 and light 8. -/
def lightsScene : VROScene :=
  { keys := [plainKey 1 5 [7], plainKey 1 5 [8], plainKey 1 5 [8]] }

/-- A scene of two keys on the same lit node, with one shader and one material
and with different light masks (`lights` 1 and 2). -/
def maskScene : VROScene :=
  { keys := [{ plainKey 1 5 [7] with lights := 1 }, { plainKey 1 5 [7] with lights := 2 }] }

/-! ## The other render-affecting methods of `VROScene` -/

/-- The calls that `renderBackground`, `updateSortKeys` and `renderStencil`
make: on the driver (`clearStencil`) and on the root node, which in turn draws
through the driver. -/
inductive SceneCall where
  | rootRenderBackground
  | rootCollectLights
  | rootUpdateSortKeys
  | rootGetSortKeysForVisibleNodes
  | clearStencil (value : Nat)
  | rootRenderStencil
deriving DecidableEq, Repr

/-- Modelled from the spec: the methods of `VRONode` that `updateSortKeys`
calls on the root node are not among the sources.  The traversal yields the
furthest distance from the camera (left in `renderParams`) and the keys of the
visible nodes, which `getSortKeysForVisibleNodes` appends to the vector it is
given. -/
structure SortKeyTraversal where
  furthestDistanceFromCamera : FloatBits
  visibleKeys : List VROSortKey
deriving DecidableEq, Repr

/-- The method `VROScene::renderBackground` (lines 33-39), called on `thread`. -/
def VROScene.renderBackground (scene : VROScene) (thread : VROThreadName) :
    Except Fault (List SceneCall) :=
  if !passert_thread scene.restrictedThread thread then
    .error Fault.threadAssertion
  else
    .ok [SceneCall.rootRenderBackground]

/-- The call `std::sort(_keys.begin(), _keys.end())` for the order `lt` of the
keys (`VROSortKey::operator<`, not among the sources): a permutation in which
no key precedes a key that is less.  Insertion sort stands for the library
routine. -/
def sortKeys (lt : VROSortKey → VROSortKey → Bool) (keys : List VROSortKey) : List VROSortKey :=
  List.insertionSort (fun a b => lt b a = false) keys

/-- The method `VROScene::updateSortKeys` (lines 118-135), called on `thread`:
the scene afterwards and the calls made. -/
def VROScene.updateSortKeys (scene : VROScene) (thread : VROThreadName)
    (lt : VROSortKey → VROSortKey → Bool) (traversal : SortKeyTraversal) :
    Except Fault (VROScene × List SceneCall) :=
  if !passert_thread scene.restrictedThread thread then
    .error Fault.threadAssertion
  else
    -- _keys.clear()
    let keys : List VROSortKey := []
    -- _rootNode->getSortKeysForVisibleNodes(&_keys)
    let keys := keys ++ traversal.visibleKeys
    -- std::sort(_keys.begin(), _keys.end())
    let keys := sortKeys lt keys
    .ok ({ scene with
            keys := keys,
            distanceOfFurthestObjectFromCamera := traversal.furthestDistanceFromCamera },
         [SceneCall.rootCollectLights, SceneCall.rootUpdateSortKeys,
          SceneCall.rootGetSortKeysForVisibleNodes])

/-- The method `VROScene::renderStencil` (lines 137-142), called on `thread`.
It contains no thread assertion. -/
def VROScene.renderStencil (scene : VROScene) (thread : VROThreadName) :
    Except Fault (List SceneCall) :=
  .ok [SceneCall.clearStencil 0, SceneCall.rootRenderStencil]

/-- An order of the keys: by shader id. -/
def shaderLt (a b : VROSortKey) : Bool := decide (a.shader < b.shader)

/-- A traversal that finds three visible keys, with shaders 2, 1, 1. -/
def sampleTraversal : SortKeyTraversal :=
  { furthestDistanceFromCamera := 7,
    visibleKeys := [plainKey 2 5 [7], plainKey 1 5 [7], plainKey 1 6 [8]] }

/-! ## The data members of `VROMaterial` and its transparency setter -/

/-- The enum `VROCullMode` of `VROMaterial.h`. -/
inductive VROCullMode where
  | Back
  | Front
  | None
deriving DecidableEq, Repr

/-- The enum `VROBlendMode` of `VROMaterial.h`. -/
inductive VROBlendMode where
  | Alpha
  | Add
  | Subtract
  | Multiply
  | Screen
  | Replace
deriving DecidableEq, Repr

/-- The enum `VROTransparencyMode` of `VROMaterial.h`. -/
inductive VROTransparencyMode where
  | AOne
  | RGBZero
deriving DecidableEq, Repr

/-- The data members of `VROMaterial` (`VROMaterial.h`, lines 158-220), but
for the visuals and the name.  `_outgoing` is `none` when the pointer is
null. -/
structure VROMaterialMembers where
  _shininess : FloatBits
  _fresnelExponent : FloatBits
  _transparency : FloatBits
  _transparencyMode : VROTransparencyMode
  _lightingModel : VROLightingModel
  _litPerPixel : Bool
  _cullMode : VROCullMode
  _blendMode : VROBlendMode
  _writesToDepthBuffer : Bool
  _readsFromDepthBuffer : Bool
  _outgoing : Option VROMaterial
  _outgoingOpacity : FloatBits
deriving DecidableEq, Repr

/-- The setter `VROMaterial::setTransparency` (lines 99-101). -/
def VROMaterialMembers.setTransparency (self : VROMaterialMembers) (transparency : FloatBits) :
    VROMaterialMembers :=
  { self with _transparency := transparency }

/-- The getter `VROMaterial::getTransparency` (lines 102-104). -/
def VROMaterialMembers.getTransparency (self : VROMaterialMembers) : FloatBits :=
  self._transparency

/-- Modelled from the spec: `hasOutgoing` is not declared in the
`VROMaterial.h` at hand; the material has an outgoing snapshot when
`_outgoing` is set. -/
def VROMaterialMembers.hasOutgoing (self : VROMaterialMembers) : Bool :=
  self._outgoing.isSome

/-- Modelled from the spec: `getOutgoingOpacity` is not declared in the
`VROMaterial.h` at hand; it yields `_outgoingOpacity`. -/
def VROMaterialMembers.getOutgoingOpacity (self : VROMaterialMembers) : FloatBits :=
  self._outgoingOpacity

/-- The bit pattern of the `float` 1.0. -/
def float_1_0 : FloatBits := 0x3F800000

/-- The bit pattern of the `float` 0.5. -/
def float_0_5 : FloatBits := 0x3F000000

/-- A material with uniform transparency 1.0 and no outgoing snapshot. -/
def opaqueMembers : VROMaterialMembers :=
  { _shininess := 0, _fresnelExponent := 0, _transparency := float_1_0,
    _transparencyMode := VROTransparencyMode.AOne, _lightingModel := VROLightingModel.Blinn,
    _litPerPixel := true, _cullMode := VROCullMode.Back, _blendMode := VROBlendMode.Alpha,
    _writesToDepthBuffer := true, _readsFromDepthBuffer := true, _outgoing := none,
    _outgoingOpacity := 0 }

/-- A scene whose only key is on an unlit node with a Phong material. -/
def unlitPhongScene : VROScene := { keys := [plainKey 1 5 []] }

/-- A scene whose only key carries the material id `UINT32_MAX`, on a lit node. -/
def sentinelMaterialScene : VROScene := { keys := [plainKey 1 UINT32_MAX [1]] }

/-! # Theorems -/

/-! ## The loop body -/

/-- The loop body, written with the three phases. -/
theorem renderKey_eq (st : BoundState) (key : VROSortKey) :
    renderKey st key =
      match key.node.getGeometry with
      | none => .ok (st, [])
      | some geometry =>
        match resolveMaterial geometry key with
        | none => .error Fault.nullDereference
        | some material =>
          .ok ((materialPhase (shaderPhase st key material).1 key material).1,
               (shaderPhase st key material).2
                 ++ (materialPhase (shaderPhase st key material).1 key material).2
                 ++ drawPhase (materialPhase (shaderPhase st key material).1 key material).1
                      key material) := by
  rfl

theorem renderKey_noGeometry (st : BoundState) (key : VROSortKey)
    (hg : key.node.getGeometry = none) : renderKey st key = .ok (st, []) := by
  rw [renderKey_eq, hg]

theorem renderKey_material (st : BoundState) (key : VROSortKey) (geometry : VROGeometry)
    (material : VROMaterial) (hg : key.node.getGeometry = some geometry)
    (hm : resolveMaterial geometry key = some material) :
    renderKey st key =
      .ok ((materialPhase (shaderPhase st key material).1 key material).1,
           (shaderPhase st key material).2
             ++ (materialPhase (shaderPhase st key material).1 key material).2
             ++ drawPhase (materialPhase (shaderPhase st key material).1 key material).1
                  key material) := by
  rw [renderKey_eq, hg]
  simp only [hm]

/-- A key is processed without fault exactly when it resolves. -/
theorem renderKey_ok_iff (st : BoundState) (key : VROSortKey) :
    (∃ result, renderKey st key = .ok result) ↔ key.resolves = true := by
  rw [renderKey_eq]
  unfold VROSortKey.resolves
  cases key.node.getGeometry with
  | none => simp
  | some geometry =>
    cases hm : resolveMaterial geometry key with
    | none => simp [hm]
    | some material => simp [hm]

/-- Outcome of the loop body for a key, case by case. -/
theorem renderKey_cases (st st1 : BoundState) (key : VROSortKey) (calls : List DriverCall)
    (h : renderKey st key = .ok (st1, calls)) :
    (key.node.getGeometry = none ∧ st1 = st ∧ calls = []) ∨
    (∃ geometry material, key.node.getGeometry = some geometry ∧
      resolveMaterial geometry key = some material ∧
      st1 = (materialPhase (shaderPhase st key material).1 key material).1 ∧
      calls = (shaderPhase st key material).2
             ++ (materialPhase (shaderPhase st key material).1 key material).2
             ++ drawPhase (materialPhase (shaderPhase st key material).1 key material).1
                  key material) := by
  rw [renderKey_eq] at h
  cases hg : key.node.getGeometry with
  | none =>
    rw [hg] at h
    simp only [Except.ok.injEq, Prod.mk.injEq] at h
    exact Or.inl ⟨rfl, h.1.symm, h.2.symm⟩
  | some geometry =>
    rw [hg] at h
    cases hm : resolveMaterial geometry key with
    | none => simp [hm] at h
    | some material =>
      simp only [hm, Except.ok.injEq, Prod.mk.injEq] at h
      exact Or.inr ⟨geometry, material, rfl, hm, h.1.symm, h.2.symm⟩

theorem shaderPhase_fst (st : BoundState) (key : VROSortKey) (material : VROMaterial) :
    (shaderPhase st key material).1 =
      { boundShaderId := key.shader, boundMaterialId := st.boundMaterialId,
        boundLights := key.node.getComputedLights } := by
  unfold shaderPhase
  by_cases h1 : key.shader = st.boundShaderId
  · by_cases h2 : st.boundLights = key.node.getComputedLights
    · cases st
      simp_all
    · simp [h1, h2]
  · simp [h1]

theorem shaderPhase_snd (st : BoundState) (key : VROSortKey) (material : VROMaterial) :
    (shaderPhase st key material).2 = shaderCalls st key material := by
  unfold shaderPhase shaderCalls
  split_ifs <;> rfl

theorem materialPhase_fst (st : BoundState) (key : VROSortKey) (material : VROMaterial) :
    (materialPhase st key material).1 =
      { boundShaderId := st.boundShaderId, boundMaterialId := key.material,
        boundLights := st.boundLights } := by
  unfold materialPhase
  by_cases h1 : key.material = st.boundMaterialId
  · cases st
    simp_all
  · simp [h1]

theorem materialPhase_snd (st : BoundState) (key : VROSortKey) (material : VROMaterial) :
    (materialPhase st key material).2 = materialCalls st key material := by
  unfold materialPhase materialCalls
  split_ifs <;> rfl

/-- At the draw decision the bound lights are the node's own computed lights,
so the test of `boundLights` is a test of the node's lights. -/
theorem drawPhase_eq (st : BoundState) (key : VROSortKey) (material : VROMaterial)
    (hl : st.boundLights = key.node.getComputedLights) :
    drawPhase st key material = drawCalls key material := by
  unfold drawPhase drawCalls
  rw [hl]
  cases hL : key.node.getComputedLights <;> cases hM : material.getLightingModel <;> simp

/-- Closed form of the loop body for a key whose node has a geometry and whose
material variant is `material`. -/
theorem renderKey_geometry (st : BoundState) (key : VROSortKey) (geometry : VROGeometry)
    (material : VROMaterial) (hg : key.node.getGeometry = some geometry)
    (hm : resolveMaterial geometry key = some material) :
    renderKey st key =
      .ok ({ boundShaderId := key.shader, boundMaterialId := key.material,
             boundLights := key.node.getComputedLights },
           shaderCalls st key material ++ materialCalls st key material
             ++ drawCalls key material) := by
  rw [renderKey_material st key geometry material hg hm, shaderPhase_snd, materialPhase_snd,
    materialPhase_fst, shaderPhase_fst, drawPhase_eq _ _ _ rfl]
  rfl

/-! ## The loop -/

theorem renderKeys_nil (st : BoundState) : renderKeys st [] = .ok (st, []) := rfl

/-- One step of the loop. -/
theorem renderKeys_cons_ok (st st2 : BoundState) (key : VROSortKey) (rest : List VROSortKey)
    (segments : List KeyCalls) :
    renderKeys st (key :: rest) = .ok (st2, segments) ↔
      ∃ st1 calls tail, renderKey st key = .ok (st1, calls) ∧
        renderKeys st1 rest = .ok (st2, tail) ∧
        segments = { key := key, calls := calls } :: tail := by
  constructor
  · intro h
    rw [renderKeys] at h
    cases hk : renderKey st key with
    | error fault => simp [hk] at h
    | ok result =>
      obtain ⟨st1, calls⟩ := result
      cases hr : renderKeys st1 rest with
      | error fault => simp [hk, hr] at h
      | ok result2 =>
        obtain ⟨st3, tail⟩ := result2
        simp only [hk, hr, Except.ok.injEq, Prod.mk.injEq] at h
        exact ⟨st1, calls, tail, rfl, by rw [hr, h.1], h.2.symm⟩
  · rintro ⟨st1, calls, tail, h1, h2, rfl⟩
    rw [renderKeys]
    simp only [h1, h2]

/-- The loop completes when every key resolves. -/
theorem renderKeys_ok_of_resolves (keys : List VROSortKey) :
    ∀ st : BoundState, (∀ key ∈ keys, key.resolves = true) →
      ∃ st2 segments, renderKeys st keys = .ok (st2, segments) := by
  induction keys with
  | nil => exact fun st _ => ⟨st, [], rfl⟩
  | cons key rest ih =>
    intro st h
    obtain ⟨⟨st1, calls⟩, hk⟩ := (renderKey_ok_iff st key).2 (h key (List.mem_cons_self _ _))
    obtain ⟨st2, tail, hr⟩ := ih st1 (fun k hk => h k (List.mem_cons_of_mem _ hk))
    exact ⟨st2, _, (renderKeys_cons_ok _ _ _ _ _).2 ⟨st1, calls, tail, hk, hr, rfl⟩⟩

/-- The loop completes only when every key resolves. -/
theorem resolves_of_renderKeys_ok (keys : List VROSortKey) :
    ∀ (st st2 : BoundState) (segments : List KeyCalls),
      renderKeys st keys = .ok (st2, segments) → ∀ key ∈ keys, key.resolves = true := by
  induction keys with
  | nil => intro _ _ _ _ key hkey; cases hkey
  | cons key rest ih =>
    intro st st2 segments h k hk
    obtain ⟨st1, calls, tail, h1, h2, _⟩ := (renderKeys_cons_ok _ _ _ _ _).1 h
    rcases List.mem_cons.1 hk with rfl | hmem
    · exact (renderKey_ok_iff st k).1 ⟨_, h1⟩
    · exact ih st1 st2 tail h2 k hmem

/-- The segments of a pass are in the order of the keys, one per key. -/
theorem renderKeys_keys (keys : List VROSortKey) :
    ∀ (st st2 : BoundState) (segments : List KeyCalls),
      renderKeys st keys = .ok (st2, segments) → segments.map KeyCalls.key = keys := by
  induction keys with
  | nil =>
    intro st st2 segments h
    simp only [renderKeys, Except.ok.injEq, Prod.mk.injEq] at h
    rw [← h.2]; rfl
  | cons key rest ih =>
    intro st st2 segments h
    obtain ⟨st1, calls, tail, _, h2, hs⟩ := (renderKeys_cons_ok _ _ _ _ _).1 h
    rw [hs, List.map_cons, ih st1 st2 tail h2]

/-- A pass cut at a key: the keys before it form a pass of their own, ending
in the state from which the key is processed. -/
theorem renderKeys_split (pre : List KeyCalls) :
    ∀ (st st2 : BoundState) (keys : List VROSortKey) (seg : KeyCalls) (post : List KeyCalls),
      renderKeys st keys = .ok (st2, pre ++ seg :: post) →
      ∃ stBefore stAfter, renderKeys st (pre.map KeyCalls.key) = .ok (stBefore, pre) ∧
        renderKey stBefore seg.key = .ok (stAfter, seg.calls) ∧
        renderKeys stAfter (post.map KeyCalls.key) = .ok (st2, post) := by
  induction pre with
  | nil =>
    intro st st2 keys seg post h
    have hkeys := renderKeys_keys keys st st2 _ h
    rw [← hkeys] at h
    simp only [List.nil_append, List.map_cons] at h
    obtain ⟨st1, calls, tail, h1, h2, hs⟩ := (renderKeys_cons_ok _ _ _ _ _).1 h
    simp only [List.cons.injEq] at hs
    obtain ⟨hseg, htail⟩ := hs
    have hcalls : seg.calls = calls := by rw [hseg]
    rw [← htail] at h2
    exact ⟨st, st1, rfl, by rw [hcalls]; exact h1, h2⟩
  | cons head pre ih =>
    intro st st2 keys seg post h
    have hkeys := renderKeys_keys keys st st2 _ h
    rw [← hkeys] at h
    simp only [List.cons_append, List.map_cons] at h
    obtain ⟨st1, calls, tail, h1, h2, hs⟩ := (renderKeys_cons_ok _ _ _ _ _).1 h
    simp only [List.cons.injEq] at hs
    obtain ⟨hhead, htail⟩ := hs
    rw [← htail] at h2
    obtain ⟨stBefore, stAfter, hp, hk, hq⟩ := ih st1 st2 _ seg post h2
    refine ⟨stBefore, stAfter, ?_, hk, hq⟩
    rw [List.map_cons]
    exact (renderKeys_cons_ok _ _ _ _ _).2 ⟨st1, calls, pre, h1, hp, congrArg (· :: pre) hhead⟩

/-! ## Calls of one key, by kind -/

theorem countP_bindShader (st : BoundState) (key : VROSortKey) (material : VROMaterial) :
    (shaderCalls st key material ++ materialCalls st key material
        ++ drawCalls key material).countP isBindShader =
      if key.shader ≠ st.boundShaderId then 1 else 0 := by
  unfold shaderCalls materialCalls drawCalls
  split_ifs <;> simp [isBindShader, List.countP_cons]

theorem countP_bindProperties (st : BoundState) (key : VROSortKey) (material : VROMaterial) :
    (shaderCalls st key material ++ materialCalls st key material
        ++ drawCalls key material).countP isBindProperties =
      if key.material ≠ st.boundMaterialId then 1 else 0 := by
  unfold shaderCalls materialCalls drawCalls
  split_ifs <;> simp [isBindProperties, List.countP_cons]

theorem countP_bindLights (st : BoundState) (key : VROSortKey) (material : VROMaterial) :
    (shaderCalls st key material ++ materialCalls st key material
        ++ drawCalls key material).countP isBindLights =
      if key.shader ≠ st.boundShaderId ∨ st.boundLights ≠ key.node.getComputedLights
      then 1 else 0 := by
  unfold shaderCalls materialCalls drawCalls
  split_ifs <;> simp_all [isBindLights, List.countP_cons]

theorem countP_draw (st : BoundState) (key : VROSortKey) (material : VROMaterial) :
    (shaderCalls st key material ++ materialCalls st key material
        ++ drawCalls key material).countP isDraw =
      if key.node.getComputedLights ≠ [] ∨
          material.getLightingModel = VROLightingModel.Constant then 1 else 0 := by
  unfold shaderCalls materialCalls drawCalls
  split_ifs <;> simp_all [isDraw, List.countP_cons]

theorem countP_setPortalStencilRefBits (st : BoundState) (key : VROSortKey)
    (material : VROMaterial) :
    (shaderCalls st key material ++ materialCalls st key material
        ++ drawCalls key material).countP isSetPortalStencilRefBits =
      if key.node.getComputedLights ≠ [] ∨
          material.getLightingModel = VROLightingModel.Constant then 1 else 0 := by
  unfold shaderCalls materialCalls drawCalls
  split_ifs <;> simp_all [isSetPortalStencilRefBits, List.countP_cons]

/-- Some call of the list satisfies `p` exactly when the count is positive. -/
theorem exists_mem_iff_countP_pos (p : DriverCall → Bool) (calls : List DriverCall) :
    (∃ call ∈ calls, p call = true) ↔ 0 < calls.countP p := by
  rw [List.countP_pos_iff]

theorem any_eq_decide_countP_pos (p : DriverCall → Bool) (calls : List DriverCall) :
    calls.any p = decide (0 < calls.countP p) := by
  rw [Bool.eq_iff_iff, List.any_eq_true, decide_eq_true_iff, List.countP_pos_iff]

/-! ## The bound state, read off the calls -/

/-- The bound state after one key, in terms of the calls issued for it. -/
theorem renderKey_state (st st1 : BoundState) (key : VROSortKey) (calls : List DriverCall)
    (h : renderKey st key = .ok (st1, calls)) :
    st1.boundShaderId = (if calls.any isBindShader then key.shader else st.boundShaderId) ∧
    st1.boundMaterialId =
      (if calls.any isBindProperties then key.material else st.boundMaterialId) ∧
    st1.boundLights =
      (if calls.any isBindLights then key.node.getComputedLights else st.boundLights) := by
  rcases renderKey_cases st st1 key calls h with ⟨_, hst, hcalls⟩ | ⟨g, m, hg, hm, _, _⟩
  · subst hst hcalls
    simp
  · rw [renderKey_geometry st key g m hg hm] at h
    simp only [Except.ok.injEq, Prod.mk.injEq] at h
    obtain ⟨hst, hcalls⟩ := h
    subst hst hcalls
    simp only [any_eq_decide_countP_pos, countP_bindShader, countP_bindProperties,
      countP_bindLights]
    refine ⟨?_, ?_, ?_⟩
    · by_cases hs : key.shader = st.boundShaderId <;> simp [hs]
    · by_cases hs : key.material = st.boundMaterialId <;> simp [hs]
    · by_cases hs : key.shader = st.boundShaderId <;>
        by_cases hl : st.boundLights = key.node.getComputedLights <;> simp [hs, hl]

/-- The bound state at the end of a pass, in terms of the calls issued. -/
theorem renderKeys_state (keys : List VROSortKey) :
    ∀ (st st2 : BoundState) (segments : List KeyCalls),
      renderKeys st keys = .ok (st2, segments) →
      st2.boundShaderId =
        segments.foldl
          (fun bound seg => if seg.calls.any isBindShader then seg.key.shader else bound)
          st.boundShaderId ∧
      st2.boundMaterialId =
        segments.foldl
          (fun bound seg => if seg.calls.any isBindProperties then seg.key.material else bound)
          st.boundMaterialId ∧
      st2.boundLights =
        segments.foldl
          (fun bound seg =>
            if seg.calls.any isBindLights then seg.key.node.getComputedLights else bound)
          st.boundLights := by
  induction keys with
  | nil =>
    intro st st2 segments h
    simp only [renderKeys, Except.ok.injEq, Prod.mk.injEq] at h
    obtain ⟨h1, h2⟩ := h
    subst h1 h2
    simp
  | cons key rest ih =>
    intro st st2 segments h
    obtain ⟨st1, calls, tail, h1, h2, hs⟩ := (renderKeys_cons_ok _ _ _ _ _).1 h
    obtain ⟨a1, a2, a3⟩ := renderKey_state st st1 key calls h1
    obtain ⟨b1, b2, b3⟩ := ih st1 st2 tail h2
    subst hs
    simp only [List.foldl_cons]
    rw [← a1, ← a2, ← a3]
    exact ⟨b1, b2, b3⟩

/-- From the initial state, the bound state is what the calls say. -/
theorem renderKeys_initial_state (keys : List VROSortKey) (st : BoundState)
    (segments : List KeyCalls) (h : renderKeys BoundState.initial keys = .ok (st, segments)) :
    st.boundShaderId = shaderBoundAfter segments ∧
    st.boundMaterialId = materialBoundAfter segments ∧
    st.boundLights = lightsBoundAfter segments :=
  renderKeys_state keys BoundState.initial st segments h

/-- The method `render` completes, on the restricted thread, when every key
resolves; its result is that of the loop from the initial state. -/
theorem render_ok (scene : VROScene) (thread : VROThreadName)
    (hthread : thread = scene.restrictedThread)
    (hres : ∀ key ∈ scene.keys, key.resolves = true) :
    ∃ st segments, renderKeys BoundState.initial scene.keys = .ok (st, segments) ∧
      scene.render thread = .ok segments := by
  obtain ⟨st, segments, h⟩ := renderKeys_ok_of_resolves scene.keys BoundState.initial hres
  refine ⟨st, segments, h, ?_⟩
  unfold VROScene.render passert_thread
  simp [hthread, h]

/-- The state in which a key of a pass is reached and left. -/
theorem render_at_key (keys : List VROSortKey) (st : BoundState) (pre post : List KeyCalls)
    (seg : KeyCalls) (h : renderKeys BoundState.initial keys = .ok (st, pre ++ seg :: post)) :
    ∃ stBefore stAfter,
      renderKeys BoundState.initial (pre.map KeyCalls.key) = .ok (stBefore, pre) ∧
      renderKey stBefore seg.key = .ok (stAfter, seg.calls) ∧
      renderKeys BoundState.initial ((pre ++ [seg]).map KeyCalls.key)
        = .ok (stAfter, pre ++ [seg]) := by
  obtain ⟨stBefore, stAfter, h1, h2, _⟩ :=
    renderKeys_split pre BoundState.initial st keys seg post h
  refine ⟨stBefore, stAfter, h1, h2, ?_⟩
  clear h
  revert h1
  generalize BoundState.initial = st0
  induction pre generalizing st0 with
  | nil =>
    intro h1
    simp only [List.map_nil, renderKeys, Except.ok.injEq, Prod.mk.injEq] at h1
    rw [h1.1]
    exact (renderKeys_cons_ok _ _ _ _ _).2 ⟨stAfter, seg.calls, [], h2, rfl, rfl⟩
  | cons head pre ih =>
    intro h1
    rw [List.map_cons] at h1
    obtain ⟨st1, calls, tail, k1, k2, ks⟩ := (renderKeys_cons_ok _ _ _ _ _).1 h1
    simp only [List.cons.injEq] at ks
    rw [← ks.2] at k2
    have := ih st1 k2
    rw [List.cons_append, List.map_cons]
    exact (renderKeys_cons_ok _ _ _ _ _).2
      ⟨st1, calls, pre ++ [seg], k1, this, congrArg (· :: (pre ++ [seg])) ks.1⟩

/-- The outcome of the loop body for a key whose node has a geometry. -/
theorem renderKey_hasGeometry (st st1 : BoundState) (key : VROSortKey) (calls : List DriverCall)
    (h : renderKey st key = .ok (st1, calls)) (hgeo : key.hasGeometry = true) :
    ∃ geometry material, key.node.getGeometry = some geometry ∧
      resolveMaterial geometry key = some material ∧
      st1 = { boundShaderId := key.shader, boundMaterialId := key.material,
              boundLights := key.node.getComputedLights } ∧
      calls = shaderCalls st key material ++ materialCalls st key material
                ++ drawCalls key material := by
  rcases renderKey_cases st st1 key calls h with ⟨hnone, _, _⟩ | ⟨g, m, hg, hm, _, _⟩
  · unfold VROSortKey.hasGeometry at hgeo
    rw [hnone] at hgeo
    cases hgeo
  · rw [renderKey_geometry st key g m hg hm] at h
    simp only [Except.ok.injEq, Prod.mk.injEq] at h
    exact ⟨g, m, hg, hm, h.1.symm, h.2.symm⟩

/-- Every segment of a pass is the outcome of the loop body for its key, from
the state the calls before it describe. -/
theorem render_segment (scene : VROScene) (thread : VROThreadName) (segments : List KeyCalls)
    (h : scene.render thread = .ok segments) (pre post : List KeyCalls) (seg : KeyCalls)
    (hsplit : segments = pre ++ seg :: post) :
    ∃ stBefore stAfter,
      renderKeys BoundState.initial (pre.map KeyCalls.key) = .ok (stBefore, pre) ∧
      renderKey stBefore seg.key = .ok (stAfter, seg.calls) ∧
      renderKeys BoundState.initial ((pre ++ [seg]).map KeyCalls.key)
        = .ok (stAfter, pre ++ [seg]) := by
  unfold VROScene.render at h
  split_ifs at h
  cases hr : renderKeys BoundState.initial scene.keys with
  | error fault => simp [hr] at h
  | ok result =>
    obtain ⟨st, segs⟩ := result
    simp only [hr, Except.ok.injEq] at h
    subst h
    subst hsplit
    exact render_at_key scene.keys st pre post seg hr

/-- The segments of a completed `render` are in the order of the keys. -/
theorem render_keys (scene : VROScene) (thread : VROThreadName) (segments : List KeyCalls)
    (h : scene.render thread = .ok segments) : segments.map KeyCalls.key = scene.keys := by
  unfold VROScene.render at h
  split_ifs at h
  cases hr : renderKeys BoundState.initial scene.keys with
  | error fault => simp [hr] at h
  | ok result =>
    obtain ⟨st, segs⟩ := result
    simp only [hr, Except.ok.injEq] at h
    subst h
    exact renderKeys_keys scene.keys _ st segs hr

/-! ## Shader, material and light rebinds (C1, C2, C5) -/

/-- C1: in a pass of `VROScene::render`, at every key whose node has a
geometry, a `bindShader` call is issued if and only if the key's shader id
differs from the bound shader id; the bound shader id is `UINT32_MAX` at first
and afterwards the shader id of the last key at which a shader was bound
(`shaderBoundAfter`), and once the key is processed it equals the key's
shader id. -/
theorem render_bindShader_iff (scene : VROScene) (thread : VROThreadName)
    (hthread : thread = scene.restrictedThread)
    (hres : ∀ key ∈ scene.keys, key.resolves = true) :
    ∃ segments, scene.render thread = .ok segments ∧
      segments.map KeyCalls.key = scene.keys ∧
      ∀ pre seg post, segments = pre ++ seg :: post → seg.key.hasGeometry = true →
        ∃ stBefore stAfter,
          renderKeys BoundState.initial (pre.map KeyCalls.key) = .ok (stBefore, pre) ∧
          renderKey stBefore seg.key = .ok (stAfter, seg.calls) ∧
          stBefore.boundShaderId = shaderBoundAfter pre ∧
          ((∃ call ∈ seg.calls, isBindShader call = true) ↔
            seg.key.shader ≠ stBefore.boundShaderId) ∧
          stAfter.boundShaderId = seg.key.shader ∧
          shaderBoundAfter (pre ++ [seg]) = seg.key.shader := by
  obtain ⟨st, segments, _, hrender⟩ := render_ok scene thread hthread hres
  refine ⟨segments, hrender, render_keys scene thread segments hrender, ?_⟩
  intro pre seg post hsplit hgeo
  obtain ⟨stBefore, stAfter, h1, h2, h3⟩ :=
    render_segment scene thread segments hrender pre post seg hsplit
  obtain ⟨g, m, _, _, hst, hcalls⟩ := renderKey_hasGeometry _ _ _ _ h2 hgeo
  have hpre := (renderKeys_initial_state _ _ _ h1).1
  have hafter := (renderKeys_initial_state _ _ _ h3).1
  have hshader : stAfter.boundShaderId = seg.key.shader := by rw [hst]
  refine ⟨stBefore, stAfter, h1, h2, hpre, ?_, hshader, ?_⟩
  · rw [exists_mem_iff_countP_pos, hcalls, countP_bindShader]
    by_cases hs : seg.key.shader = stBefore.boundShaderId <;> simp [hs]
  · rw [← hafter, hshader]

/-- C2: in a pass of `VROScene::render`, at every key whose node has a
geometry, a `bindProperties` call is issued if and only if the key's material
id differs from the bound material id (`UINT32_MAX` at first, afterwards the
material id of the last key at which properties were bound); whether the
shader was rebound at the key plays no part. -/
theorem render_bindProperties_iff (scene : VROScene) (thread : VROThreadName)
    (hthread : thread = scene.restrictedThread)
    (hres : ∀ key ∈ scene.keys, key.resolves = true) :
    ∃ segments, scene.render thread = .ok segments ∧
      segments.map KeyCalls.key = scene.keys ∧
      ∀ pre seg post, segments = pre ++ seg :: post → seg.key.hasGeometry = true →
        ∃ stBefore stAfter,
          renderKeys BoundState.initial (pre.map KeyCalls.key) = .ok (stBefore, pre) ∧
          renderKey stBefore seg.key = .ok (stAfter, seg.calls) ∧
          stBefore.boundMaterialId = materialBoundAfter pre ∧
          ((∃ call ∈ seg.calls, isBindProperties call = true) ↔
            seg.key.material ≠ stBefore.boundMaterialId) ∧
          (seg.key.material = stBefore.boundMaterialId →
            ∀ call ∈ seg.calls, isBindProperties call = false) ∧
          stAfter.boundMaterialId = seg.key.material := by
  obtain ⟨st, segments, _, hrender⟩ := render_ok scene thread hthread hres
  refine ⟨segments, hrender, render_keys scene thread segments hrender, ?_⟩
  intro pre seg post hsplit hgeo
  obtain ⟨stBefore, stAfter, h1, h2, _⟩ :=
    render_segment scene thread segments hrender pre post seg hsplit
  obtain ⟨g, m, _, _, hst, hcalls⟩ := renderKey_hasGeometry _ _ _ _ h2 hgeo
  have hpre := (renderKeys_initial_state _ _ _ h1).2.1
  have hiff : (∃ call ∈ seg.calls, isBindProperties call = true) ↔
      seg.key.material ≠ stBefore.boundMaterialId := by
    rw [exists_mem_iff_countP_pos, hcalls, countP_bindProperties]
    by_cases hs : seg.key.material = stBefore.boundMaterialId <;> simp [hs]
  refine ⟨stBefore, stAfter, h1, h2, hpre, hiff, ?_, by rw [hst]⟩
  intro heq call hmem
  cases hc : isBindProperties call with
  | false => rfl
  | true => exact absurd heq (hiff.1 ⟨call, hmem, hc⟩)

/-- The calls a key with geometry can give rise to. -/
theorem mem_keyCalls (st : BoundState) (key : VROSortKey) (material : VROMaterial)
    (call : DriverCall)
    (h : call ∈ shaderCalls st key material ++ materialCalls st key material
                  ++ drawCalls key material) :
    call = DriverCall.bindShader material ∨
    call = DriverCall.bindLights key.lights key.node.getComputedLights material ∨
    call = DriverCall.bindProperties material ∨
    call = DriverCall.setPortalStencilRefBits key.portalStencilBits ∨
    call = DriverCall.render key.node key.elementIndex material := by
  unfold shaderCalls materialCalls drawCalls at h
  split_ifs at h <;> simp at h <;> tauto

/-- C5: in a pass of `VROScene::render`, at every key whose node has a
geometry and whose shader id equals the bound shader id, a `bindLights` call
is issued if and only if the light set of the key (the computed lights of its
node) differs from the bound light set; the bound light set is empty at first
and afterwards that of the key at which lights were last bound
(`lightsBoundAfter`). -/
theorem render_bindLights_iff (scene : VROScene) (thread : VROThreadName)
    (hthread : thread = scene.restrictedThread)
    (hres : ∀ key ∈ scene.keys, key.resolves = true) :
    ∃ segments, scene.render thread = .ok segments ∧
      segments.map KeyCalls.key = scene.keys ∧
      ∀ pre seg post, segments = pre ++ seg :: post → seg.key.hasGeometry = true →
        ∃ stBefore stAfter,
          renderKeys BoundState.initial (pre.map KeyCalls.key) = .ok (stBefore, pre) ∧
          renderKey stBefore seg.key = .ok (stAfter, seg.calls) ∧
          stBefore.boundLights = lightsBoundAfter pre ∧
          (seg.key.shader = stBefore.boundShaderId →
            ((∃ call ∈ seg.calls, isBindLights call = true) ↔
              seg.key.node.getComputedLights ≠ stBefore.boundLights)) ∧
          (∀ call ∈ seg.calls, isBindLights call = true →
            ∃ material, call = DriverCall.bindLights seg.key.lights
              seg.key.node.getComputedLights material) := by
  obtain ⟨st, segments, _, hrender⟩ := render_ok scene thread hthread hres
  refine ⟨segments, hrender, render_keys scene thread segments hrender, ?_⟩
  intro pre seg post hsplit hgeo
  obtain ⟨stBefore, stAfter, h1, h2, _⟩ :=
    render_segment scene thread segments hrender pre post seg hsplit
  obtain ⟨g, m, _, _, hst, hcalls⟩ := renderKey_hasGeometry _ _ _ _ h2 hgeo
  have hpre := (renderKeys_initial_state _ _ _ h1).2.2
  refine ⟨stBefore, stAfter, h1, h2, hpre, ?_, ?_⟩
  · intro hshader
    rw [exists_mem_iff_countP_pos, hcalls, countP_bindLights]
    by_cases hl : stBefore.boundLights = seg.key.node.getComputedLights
    · simp [hshader, hl]
    · simp [hshader, hl, Ne.symm hl]
  · intro call hmem hcall
    refine ⟨m, ?_⟩
    rw [hcalls] at hmem
    rcases mem_keyCalls _ _ _ _ hmem with h | h | h | h | h
    · subst h; cases hcall
    · exact h
    · subst h; cases hcall
    · subst h; cases hcall
    · subst h; cases hcall

/-! ## The draw decision and the calls around it (C3, C4, C6) -/

/-- At the draw decision of a key with geometry, `boundLights` holds the
computed lights of the key's own node. -/
theorem boundLights_at_draw (st : BoundState) (key : VROSortKey) (material : VROMaterial) :
    (materialPhase (shaderPhase st key material).1 key material).1.boundLights =
      key.node.getComputedLights := by
  rw [materialPhase_fst, shaderPhase_fst]

/-- Every segment of a completed `render` is the outcome of the loop body for
its key from some bound state. -/
theorem render_segment_of_mem (scene : VROScene) (thread : VROThreadName)
    (segments : List KeyCalls) (h : scene.render thread = .ok segments) (seg : KeyCalls)
    (hmem : seg ∈ segments) :
    ∃ stBefore stAfter, renderKey stBefore seg.key = .ok (stAfter, seg.calls) := by
  obtain ⟨pre, post, hsplit⟩ := List.append_of_mem hmem
  obtain ⟨stBefore, stAfter, _, h2, _⟩ := render_segment scene thread segments h pre post seg hsplit
  exact ⟨stBefore, stAfter, h2⟩

/-- The calls of a segment of a completed `render`. -/
theorem render_segment_calls (scene : VROScene) (thread : VROThreadName)
    (segments : List KeyCalls) (h : scene.render thread = .ok segments) (seg : KeyCalls)
    (hmem : seg ∈ segments) :
    (seg.key.node.getGeometry = none ∧ seg.calls = []) ∨
    ∃ geometry material st, seg.key.node.getGeometry = some geometry ∧
      resolveMaterial geometry seg.key = some material ∧
      seg.calls = shaderCalls st seg.key material ++ materialCalls st seg.key material
                    ++ drawCalls seg.key material := by
  obtain ⟨stBefore, stAfter, h2⟩ := render_segment_of_mem scene thread segments h seg hmem
  rcases renderKey_cases _ _ _ _ h2 with ⟨hnone, _, hcalls⟩ | ⟨g, m, hg, hm, _, _⟩
  · exact Or.inl ⟨hnone, hcalls⟩
  · rw [renderKey_geometry stBefore seg.key g m hg hm] at h2
    simp only [Except.ok.injEq, Prod.mk.injEq] at h2
    exact Or.inr ⟨g, m, stBefore, hg, hm, h2.2.symm⟩

/-- C3: in a pass of `VROScene::render`, the element of a key with geometry is
drawn (`node->render` is called, for the key's node, element and material
variant) if and only if the light list computed for the key's own node is
non-empty or the lighting model of the material variant is `Constant`.  With
an empty light list a `Constant` material is drawn and a `Phong`, `Blinn` or
`Lambert` material is not. -/
theorem render_draw_iff (scene : VROScene) (thread : VROThreadName)
    (hthread : thread = scene.restrictedThread)
    (hres : ∀ key ∈ scene.keys, key.resolves = true) :
    ∃ segments, scene.render thread = .ok segments ∧
      segments.map KeyCalls.key = scene.keys ∧
      ∀ seg ∈ segments, ∀ geometry material,
        seg.key.node.getGeometry = some geometry →
        resolveMaterial geometry seg.key = some material →
        ((∃ call ∈ seg.calls, isDraw call = true) ↔
          (seg.key.node.getComputedLights ≠ [] ∨
            material.getLightingModel = VROLightingModel.Constant)) ∧
        (∀ call ∈ seg.calls, isDraw call = true →
          call = DriverCall.render seg.key.node seg.key.elementIndex material) ∧
        (seg.key.node.getComputedLights = [] →
          material.getLightingModel = VROLightingModel.Constant →
          DriverCall.render seg.key.node seg.key.elementIndex material ∈ seg.calls) ∧
        (seg.key.node.getComputedLights = [] →
          (material.getLightingModel = VROLightingModel.Phong ∨
           material.getLightingModel = VROLightingModel.Blinn ∨
           material.getLightingModel = VROLightingModel.Lambert) →
          ∀ call ∈ seg.calls, isDraw call = false) := by
  obtain ⟨st, segments, _, hrender⟩ := render_ok scene thread hthread hres
  refine ⟨segments, hrender, render_keys scene thread segments hrender, ?_⟩
  intro seg hmem geometry material hg hm
  rcases render_segment_calls scene thread segments hrender seg hmem with
    ⟨hnone, _⟩ | ⟨g, m, st0, hg2, hm2, hcalls⟩
  · rw [hnone] at hg; cases hg
  · rw [hg] at hg2
    cases hg2
    rw [hm] at hm2
    cases hm2
    have hiff : (∃ call ∈ seg.calls, isDraw call = true) ↔
        (seg.key.node.getComputedLights ≠ [] ∨
          material.getLightingModel = VROLightingModel.Constant) := by
      rw [exists_mem_iff_countP_pos, hcalls, countP_draw]
      split_ifs with hc
      · simp [hc]
      · simp [hc]
    have hform : ∀ call ∈ seg.calls, isDraw call = true →
        call = DriverCall.render seg.key.node seg.key.elementIndex material := by
      intro call hcm hcall
      rw [hcalls] at hcm
      rcases mem_keyCalls _ _ _ _ hcm with h | h | h | h | h
      · subst h; cases hcall
      · subst h; cases hcall
      · subst h; cases hcall
      · subst h; cases hcall
      · exact h
    refine ⟨hiff, hform, ?_, ?_⟩
    · intro _ hconst
      obtain ⟨call, hcm, hcall⟩ := hiff.2 (Or.inr hconst)
      rw [← hform call hcm hcall]
      exact hcm
    · intro hempty hmodel call hcm
      cases hc : isDraw call with
      | false => rfl
      | true =>
        rcases hiff.1 ⟨call, hcm, hc⟩ with h | h
        · exact absurd hempty h
        · rw [h] at hmodel
          rcases hmodel with h' | h' | h' <;> cases h'

/-- C4: in a pass of `VROScene::render`, whenever a `bindShader` call is
issued for a key, it is the first call for that key and the call right after
it is `bindLights` with the key's light mask and the computed lights of the
key's node, on the same material; this holds whatever light set was bound
before. -/
theorem render_bindShader_then_bindLights (scene : VROScene) (thread : VROThreadName)
    (hthread : thread = scene.restrictedThread)
    (hres : ∀ key ∈ scene.keys, key.resolves = true) :
    ∃ segments, scene.render thread = .ok segments ∧
      segments.map KeyCalls.key = scene.keys ∧
      ∀ seg ∈ segments, (∃ call ∈ seg.calls, isBindShader call = true) →
        ∃ material rest,
          seg.calls = DriverCall.bindShader material ::
            DriverCall.bindLights seg.key.lights seg.key.node.getComputedLights material ::
            rest ∧
          ∀ call ∈ rest, isBindShader call = false := by
  obtain ⟨st, segments, _, hrender⟩ := render_ok scene thread hthread hres
  refine ⟨segments, hrender, render_keys scene thread segments hrender, ?_⟩
  intro seg hmem hbind
  rcases render_segment_calls scene thread segments hrender seg hmem with
    ⟨_, hnil⟩ | ⟨g, m, st0, _, _, hcalls⟩
  · obtain ⟨call, hcm, _⟩ := hbind
    rw [hnil] at hcm
    cases hcm
  · have hpos := (exists_mem_iff_countP_pos _ _).1 hbind
    rw [hcalls, countP_bindShader] at hpos
    have hne : seg.key.shader ≠ st0.boundShaderId := by
      by_contra hcon
      simp [hcon] at hpos
    refine ⟨m, materialCalls st0 seg.key m ++ drawCalls seg.key m, ?_, ?_⟩
    · rw [hcalls]
      unfold shaderCalls
      simp [hne]
    · intro call hcm
      unfold materialCalls drawCalls at hcm
      split_ifs at hcm <;> simp at hcm <;>
        (try rcases hcm with h | h | h) <;> (try subst h) <;> rfl

/-- A property "every `p`-call is immediately preceded by a call related to it
by `q`" passes from the lists of a family to their concatenation. -/
theorem flatten_preceded (p : DriverCall → Bool) (q : DriverCall → DriverCall → Prop)
    (lists : List (List DriverCall))
    (h : ∀ l ∈ lists, ∀ a c b, l = a ++ c :: b → p c = true →
      ∃ a1 d, a = a1 ++ [d] ∧ q d c) :
    ∀ a c b, lists.flatten = a ++ c :: b → p c = true → ∃ a1 d, a = a1 ++ [d] ∧ q d c := by
  induction lists with
  | nil =>
    intro a c b hsplit
    simp at hsplit
  | cons l rest ih =>
    intro a c b hsplit hp
    have ih1 := ih (fun l1 hl1 => h l1 (List.mem_cons_of_mem _ hl1))
    rw [List.flatten_cons, List.append_eq_append_iff] at hsplit
    rcases hsplit with ⟨a2, ha, hrest⟩ | ⟨c2, hl, hcb⟩
    · obtain ⟨a1, d, ha2, hq⟩ := ih1 a2 c b hrest hp
      exact ⟨l ++ a1, d, by rw [ha, ha2, List.append_assoc], hq⟩
    · cases c2 with
      | nil =>
        rw [List.nil_append] at hcb
        obtain ⟨a1, d, ha2, _⟩ := ih1 [] c b (by rw [← hcb, List.nil_append]) hp
        simp at ha2
      | cons x c3 =>
        rw [List.cons_append, List.cons.injEq] at hcb
        obtain ⟨rfl, _⟩ := hcb
        exact h l (List.mem_cons_self _ _) a c c3 hl hp

/-- Within the calls of one key with geometry, a draw is the last call and the
call right before it is `setPortalStencilRefBits` with the key's bits. -/
theorem keyCalls_draw_preceded (st : BoundState) (key : VROSortKey) (material : VROMaterial)
    (a b : List DriverCall) (c : DriverCall)
    (hsplit : shaderCalls st key material ++ materialCalls st key material
                ++ drawCalls key material = a ++ c :: b)
    (hc : isDraw c = true) :
    a = shaderCalls st key material ++ materialCalls st key material
          ++ [DriverCall.setPortalStencilRefBits key.portalStencilBits] ∧
    c = DriverCall.render key.node key.elementIndex material ∧ b = [] := by
  have hbinds : ∀ x ∈ shaderCalls st key material ++ materialCalls st key material,
      isDraw x = false := by
    intro x hx
    unfold shaderCalls materialCalls at hx
    split_ifs at hx <;> simp at hx <;> (try rcases hx with h | h | h) <;> (try subst h) <;> rfl
  rw [List.append_eq_append_iff] at hsplit
  rcases hsplit with ⟨a2, ha, hdraw⟩ | ⟨c2, hl, hcb⟩
  · unfold drawCalls at hdraw
    split_ifs at hdraw
    · rcases a2 with _ | ⟨x, _ | ⟨y, a3⟩⟩
      · simp only [List.nil_append, List.cons.injEq] at hdraw
        rw [← hdraw.1] at hc
        cases hc
      · simp only [List.cons_append, List.nil_append, List.cons.injEq] at hdraw
        obtain ⟨hx, hy, hb⟩ := hdraw
        exact ⟨by rw [ha, ← hx], hy.symm, hb.symm⟩
      · simp at hdraw
    · simp at hdraw
  · cases c2 with
    | nil =>
      rw [List.nil_append] at hcb
      unfold drawCalls at hcb
      split_ifs at hcb
      · simp only [List.cons.injEq] at hcb
        rw [hcb.1] at hc
        cases hc
    | cons x c3 =>
      rw [List.cons_append, List.cons.injEq] at hcb
      have hx : isDraw c = false := hbinds c (by rw [hl, hcb.1]; simp)
      rw [hx] at hc
      cases hc

/-- C6: in the driver-call trace of a pass of `VROScene::render`, every draw
is the draw of some key of the list and the call right before it is
`setPortalStencilRefBits` with the `portalStencilBits` of that key; within the
calls of a key, a draw is last and directly follows the stencil call of that
key; and the trace has as many `setPortalStencilRefBits` calls as draws. -/
theorem render_draw_preceded_by_stencil (scene : VROScene) (thread : VROThreadName)
    (hthread : thread = scene.restrictedThread)
    (hres : ∀ key ∈ scene.keys, key.resolves = true) :
    ∃ segments, scene.render thread = .ok segments ∧
      segments.map KeyCalls.key = scene.keys ∧
      (∀ a c b, driverTrace segments = a ++ c :: b → isDraw c = true →
        ∃ a1 d, a = a1 ++ [d] ∧ ∃ key ∈ scene.keys, ∃ material,
          c = DriverCall.render key.node key.elementIndex material ∧
          d = DriverCall.setPortalStencilRefBits key.portalStencilBits) ∧
      (∀ seg ∈ segments, ∀ a c b, seg.calls = a ++ c :: b → isDraw c = true →
        b = [] ∧ ∃ a1, a = a1 ++ [DriverCall.setPortalStencilRefBits seg.key.portalStencilBits]) ∧
      (driverTrace segments).countP isSetPortalStencilRefBits =
        (driverTrace segments).countP isDraw := by
  obtain ⟨st, segments, _, hrender⟩ := render_ok scene thread hthread hres
  have hkeys := render_keys scene thread segments hrender
  have hseg : ∀ seg ∈ segments, ∀ a c b, seg.calls = a ++ c :: b → isDraw c = true →
      b = [] ∧ (∃ a1, a = a1 ++ [DriverCall.setPortalStencilRefBits seg.key.portalStencilBits]) ∧
      ∃ material, c = DriverCall.render seg.key.node seg.key.elementIndex material := by
    intro seg hmem a c b hsplit hc
    rcases render_segment_calls scene thread segments hrender seg hmem with
      ⟨_, hnil⟩ | ⟨g, m, st0, _, _, hcalls⟩
    · rw [hnil] at hsplit
      simp at hsplit
    · rw [hcalls] at hsplit
      obtain ⟨ha, hcr, hb⟩ := keyCalls_draw_preceded st0 seg.key m a b c hsplit hc
      exact ⟨hb, ⟨_, ha⟩, m, hcr⟩
  refine ⟨segments, hrender, hkeys, ?_, ?_, ?_⟩
  · refine flatten_preceded isDraw
      (fun d c => ∃ key ∈ scene.keys, ∃ material,
          c = DriverCall.render key.node key.elementIndex material ∧
          d = DriverCall.setPortalStencilRefBits key.portalStencilBits)
      (segments.map KeyCalls.calls) ?_
    intro l hl a c b hsplit hc
    obtain ⟨seg, hmem, rfl⟩ := List.mem_map.1 hl
    obtain ⟨_, ⟨a1, ha⟩, m, hcr⟩ := hseg seg hmem a c b hsplit hc
    refine ⟨a1, _, ha, seg.key, ?_, m, hcr, rfl⟩
    rw [← hkeys]
    exact List.mem_map_of_mem _ hmem
  · intro seg hmem a c b hsplit hc
    obtain ⟨hb, ha, _⟩ := hseg seg hmem a c b hsplit hc
    exact ⟨hb, ha⟩
  · unfold driverTrace
    rw [List.countP_flatten, List.countP_flatten]
    congr 1
    rw [List.map_map, List.map_map]
    apply List.map_congr_left
    intro seg hmem
    simp only [Function.comp]
    rcases render_segment_calls scene thread segments hrender seg hmem with
      ⟨_, hnil⟩ | ⟨g, m, st0, _, _, hcalls⟩
    · rw [hnil]; rfl
    · rw [hcalls, countP_setPortalStencilRefBits, countP_draw]

/-! ## Counting rebinds (C7, C8) -/

theorem maximalRuns_cons_le (x y : Nat) (l : List Nat) :
    maximalRuns (x :: l) ≤ 1 + maximalRuns (y :: l) := by
  cases l with
  | nil => simp [maximalRuns]
  | cons c r =>
    simp only [maximalRuns]
    split_ifs <;> omega

theorem maximalRuns_le_succ (x : Nat) (l : List Nat) :
    maximalRuns (x :: l) ≤ 1 + maximalRuns l := by
  cases l with
  | nil => simp [maximalRuns]
  | cons c r =>
    simp only [maximalRuns]
    split_ifs <;> omega

theorem maximalRuns_insert (x a : Nat) (l : List Nat) :
    maximalRuns (x :: l) ≤ maximalRuns (x :: a :: l) := by
  have h := maximalRuns_cons_le x a l
  by_cases hxa : x = a
  · subst hxa
    simp [maximalRuns]
  · simp only [maximalRuns, hxa, if_false]
    exact h

theorem adjacentDiffs_cons_le {α : Type} [DecidableEq α] (x y : α) (l : List α) :
    adjacentDiffs (x :: l) ≤ 1 + adjacentDiffs (y :: l) := by
  cases l with
  | nil => simp [adjacentDiffs]
  | cons c r =>
    simp only [adjacentDiffs]
    split_ifs <;> omega

theorem adjacentDiffs_le_succ {α : Type} [DecidableEq α] (x : α) (l : List α) :
    adjacentDiffs (x :: l) ≤ 1 + adjacentDiffs l := by
  cases l with
  | nil => simp [adjacentDiffs]
  | cons c r =>
    simp only [adjacentDiffs]
    split_ifs <;> omega

theorem adjacentDiffs_le_cons {α : Type} [DecidableEq α] (x : α) (l : List α) :
    adjacentDiffs l ≤ adjacentDiffs (x :: l) := by
  cases l with
  | nil => simp [adjacentDiffs]
  | cons c r =>
    simp only [adjacentDiffs]
    split_ifs <;> omega

theorem adjacentDiffs_insert {α : Type} [DecidableEq α] (x a : α) (l : List α) :
    adjacentDiffs (x :: l) ≤ adjacentDiffs (x :: a :: l) := by
  have h := adjacentDiffs_cons_le x a l
  by_cases hxa : x = a
  · subst hxa
    simp [adjacentDiffs]
  · simp only [adjacentDiffs, hxa, if_false]
    exact h

theorem driverTrace_cons (seg : KeyCalls) (tail : List KeyCalls) :
    driverTrace (seg :: tail) = seg.calls ++ driverTrace tail := rfl

/-- From any bound state: shader binds against runs of shader ids, property
binds against runs of material ids, light binds against shader binds and
changes of light set, each with the bound state as a key in front. -/
theorem renderKeys_counts (keys : List VROSortKey) :
    ∀ (st st2 : BoundState) (segments : List KeyCalls),
      renderKeys st keys = .ok (st2, segments) →
      (driverTrace segments).countP isBindShader + 1 ≤
        maximalRuns (st.boundShaderId :: keys.map VROSortKey.shader) ∧
      (driverTrace segments).countP isBindProperties + 1 ≤
        maximalRuns (st.boundMaterialId :: keys.map VROSortKey.material) ∧
      (driverTrace segments).countP isBindLights ≤
        (driverTrace segments).countP isBindShader +
          adjacentDiffs (st.boundLights :: keys.map (fun key => key.node.getComputedLights)) := by
  induction keys with
  | nil =>
    intro st st2 segments h
    simp only [renderKeys, Except.ok.injEq, Prod.mk.injEq] at h
    rw [← h.2]
    simp [driverTrace, maximalRuns, adjacentDiffs]
  | cons key rest ih =>
    intro st st2 segments h
    obtain ⟨st1, calls, tail, h1, h2, hs⟩ := (renderKeys_cons_ok _ _ _ _ _).1 h
    obtain ⟨i1, i2, i3⟩ := ih st1 st2 tail h2
    subst hs
    simp only [driverTrace_cons, List.countP_append, List.map_cons]
    rcases renderKey_cases st st1 key calls h1 with ⟨_, hst, hcalls⟩ | ⟨g, m, hg, hm, _, _⟩
    · subst hst hcalls
      have r1 := maximalRuns_insert st1.boundShaderId key.shader (rest.map VROSortKey.shader)
      have r2 := maximalRuns_insert st1.boundMaterialId key.material
        (rest.map VROSortKey.material)
      have r3 := adjacentDiffs_insert st1.boundLights key.node.getComputedLights
        (rest.map (fun key => key.node.getComputedLights))
      simp only [List.countP_nil, Nat.zero_add]
      omega
    · rw [renderKey_geometry st key g m hg hm] at h1
      simp only [Except.ok.injEq, Prod.mk.injEq] at h1
      obtain ⟨hst, hcalls⟩ := h1
      subst hst hcalls
      simp only [countP_bindShader, countP_bindProperties, countP_bindLights]
      have f1 : (if key.shader ≠ st.boundShaderId then 1 else 0) =
          (if st.boundShaderId = key.shader then 0 else 1) := by
        split_ifs <;> simp_all
      have f2 : (if key.material ≠ st.boundMaterialId then 1 else 0) =
          (if st.boundMaterialId = key.material then 0 else 1) := by
        split_ifs <;> simp_all
      have f3 : (if key.shader ≠ st.boundShaderId ∨
            st.boundLights ≠ key.node.getComputedLights then 1 else 0) ≤
          (if st.boundShaderId = key.shader then 0 else 1) +
            (if st.boundLights = key.node.getComputedLights then 0 else 1) := by
        split_ifs <;> simp_all
      rw [f1, f2]
      dsimp only at i1 i2 i3
      simp only [maximalRuns, adjacentDiffs]
      omega

/-- From the initial state, when the first key with geometry does not carry
the shader id `UINT32_MAX`: light binds against shader binds and changes of
light set between adjacent keys. -/
theorem renderKeys_initial_lights (keys : List VROSortKey) :
    ∀ (st2 : BoundState) (segments : List KeyCalls),
      renderKeys BoundState.initial keys = .ok (st2, segments) →
      (∀ key, firstWithGeometry keys = some key → key.shader ≠ UINT32_MAX) →
      (driverTrace segments).countP isBindLights ≤
        (driverTrace segments).countP isBindShader +
          adjacentDiffs (keys.map (fun key => key.node.getComputedLights)) := by
  induction keys with
  | nil =>
    intro st2 segments h _
    simp only [renderKeys, Except.ok.injEq, Prod.mk.injEq] at h
    rw [← h.2]
    simp [driverTrace]
  | cons key rest ih =>
    intro st2 segments h hfirst
    obtain ⟨st1, calls, tail, h1, h2, hs⟩ := (renderKeys_cons_ok _ _ _ _ _).1 h
    subst hs
    simp only [driverTrace_cons, List.countP_append, List.map_cons]
    rcases renderKey_cases _ st1 key calls h1 with ⟨hnone, hst, hcalls⟩ | ⟨g, m, hg, hm, _, _⟩
    · subst hst hcalls
      have hrest : ∀ k, firstWithGeometry rest = some k → k.shader ≠ UINT32_MAX := by
        intro k hk
        apply hfirst k
        unfold firstWithGeometry at hk ⊢
        rw [List.find?_cons]
        have : key.hasGeometry = false := by
          unfold VROSortKey.hasGeometry
          rw [hnone]
          rfl
        rw [this]
        exact hk
      have i := ih st2 tail h2 hrest
      have r := adjacentDiffs_le_cons key.node.getComputedLights
        (rest.map (fun key => key.node.getComputedLights))
      simp only [List.countP_nil, Nat.zero_add]
      omega
    · have hshader : key.shader ≠ UINT32_MAX := by
        apply hfirst key
        unfold firstWithGeometry
        rw [List.find?_cons]
        have : key.hasGeometry = true := by
          unfold VROSortKey.hasGeometry
          rw [hg]
          rfl
        rw [this]
      rw [renderKey_geometry _ key g m hg hm] at h1
      simp only [Except.ok.injEq, Prod.mk.injEq] at h1
      obtain ⟨hst, hcalls⟩ := h1
      subst hst hcalls
      obtain ⟨_, _, i3⟩ := renderKeys_counts rest _ st2 tail h2
      dsimp only at i3
      have hinit : BoundState.initial.boundShaderId = UINT32_MAX := rfl
      simp only [countP_bindShader, countP_bindLights, hinit, hshader, ne_eq, not_false_eq_true,
        true_or, if_true]
      omega

/-- C7, as amended: in a pass of `VROScene::render` the number of `bindShader`
calls is at most the number of maximal runs of consecutive keys with equal
shader id, the number of `bindProperties` calls is at most the number of
maximal runs with equal material id, and the number of `bindLights` calls is
at most the number of shader binds plus the number of adjacent key pairs whose
light sets differ, plus one; the one is not needed when the first key with
geometry has a shader id other than `UINT32_MAX`. -/
theorem render_rebind_counts (scene : VROScene) (thread : VROThreadName)
    (hthread : thread = scene.restrictedThread)
    (hres : ∀ key ∈ scene.keys, key.resolves = true) :
    ∃ segments, scene.render thread = .ok segments ∧
      (driverTrace segments).countP isBindShader ≤
        maximalRuns (scene.keys.map VROSortKey.shader) ∧
      (driverTrace segments).countP isBindProperties ≤
        maximalRuns (scene.keys.map VROSortKey.material) ∧
      (driverTrace segments).countP isBindLights ≤
        (driverTrace segments).countP isBindShader +
          adjacentDiffs (scene.keys.map (fun key => key.node.getComputedLights)) + 1 ∧
      ((∀ key, firstWithGeometry scene.keys = some key → key.shader ≠ UINT32_MAX) →
        (driverTrace segments).countP isBindLights ≤
          (driverTrace segments).countP isBindShader +
            adjacentDiffs (scene.keys.map (fun key => key.node.getComputedLights))) := by
  obtain ⟨st, segments, hloop, hrender⟩ := render_ok scene thread hthread hres
  obtain ⟨c1, c2, c3⟩ := renderKeys_counts scene.keys _ st segments hloop
  have r1 := maximalRuns_le_succ BoundState.initial.boundShaderId
    (scene.keys.map VROSortKey.shader)
  have r2 := maximalRuns_le_succ BoundState.initial.boundMaterialId
    (scene.keys.map VROSortKey.material)
  have r3 := adjacentDiffs_le_succ BoundState.initial.boundLights
    (scene.keys.map (fun key => key.node.getComputedLights))
  refine ⟨segments, hrender, by omega, by omega, by omega, ?_⟩
  exact renderKeys_initial_lights scene.keys st segments hloop

/-- C7, counterexample: for the single key of `sentinelScene`, whose shader id
is `UINT32_MAX`, the pass issues one `bindLights` call and no `bindShader`
call, and a single key has no adjacent pair: the count of light binds exceeds
the number of shader binds plus the number of adjacent pairs whose light sets
differ. -/
theorem render_rebind_counts_sentinel :
    ∃ segments, sentinelScene.render VROThreadName.Renderer = .ok segments ∧
      (driverTrace segments).countP isBindShader = 0 ∧
      adjacentDiffs (sentinelScene.keys.map (fun key => key.node.getComputedLights)) = 0 ∧
      (driverTrace segments).countP isBindLights = 1 ∧
      ¬ ((driverTrace segments).countP isBindLights ≤
          (driverTrace segments).countP isBindShader +
            adjacentDiffs (sentinelScene.keys.map (fun key => key.node.getComputedLights))) :=
  ⟨_, rfl, rfl, rfl, rfl, by decide⟩

theorem opaqueLe_shader (a b : VROSortKey) (h : VROSortKey.opaqueLe a b = true) :
    a.shader ≤ b.shader := by
  unfold VROSortKey.opaqueLe at h
  simp only [Bool.or_eq_true, Bool.and_eq_true, decide_eq_true_eq] at h
  rcases h with h | ⟨h, _⟩ <;> omega

/-- C8: for a sorted list of three keys with geometry, the first two with
shader `S1` and material `M1`, the third with shader `S2` and material `M1`,
where `S1` and `S2` differ and are 32-bit identifiers, one pass of
`VROScene::render` issues exactly 2 `bindShader` calls and at most 2
`bindProperties` calls. -/
theorem scenario_bind_counts (k1 k2 k3 : VROSortKey) (S1 S2 M1 : Nat) (thread : VROThreadName)
    (hthread : thread = VROThreadName.Renderer)
    (hk1 : k1.shader = S1 ∧ k1.material = M1)
    (hk2 : k2.shader = S1 ∧ k2.material = M1)
    (hk3 : k3.shader = S2 ∧ k3.material = M1)
    (hgeo : ∀ key ∈ [k1, k2, k3], key.hasGeometry = true ∧ key.resolves = true)
    (hne : S1 ≠ S2)
    (hsorted : sortedOpaque [k1, k2, k3] = true)
    (hrange : S2 ≤ UINT32_MAX) :
    ∃ segments, VROScene.render { keys := [k1, k2, k3] } thread = .ok segments ∧
      (driverTrace segments).countP isBindShader = 2 ∧
      (driverTrace segments).countP isBindProperties ≤ 2 := by
  have hS1 : S1 ≠ UINT32_MAX := by
    have h23 : k2.shader ≤ k3.shader := by
      apply opaqueLe_shader
      simp only [sortedOpaque, Bool.and_true, Bool.and_eq_true] at hsorted
      exact hsorted.2
    rw [hk2.1, hk3.1] at h23
    omega
  obtain ⟨st, segments, hloop, hrender⟩ :=
    render_ok { keys := [k1, k2, k3] } thread hthread (fun key hkey => (hgeo key hkey).2)
  refine ⟨segments, hrender, ?_⟩
  dsimp only at hloop
  obtain ⟨st1, calls1, tail1, a1, b1, rfl⟩ := (renderKeys_cons_ok _ _ _ _ _).1 hloop
  obtain ⟨st2, calls2, tail2, a2, b2, rfl⟩ := (renderKeys_cons_ok _ _ _ _ _).1 b1
  obtain ⟨st3, calls3, tail3, a3, b3, rfl⟩ := (renderKeys_cons_ok _ _ _ _ _).1 b2
  simp only [renderKeys, Except.ok.injEq, Prod.mk.injEq] at b3
  obtain ⟨_, rfl⟩ := b3
  obtain ⟨g1, m1, _, _, e1, c1⟩ := renderKey_hasGeometry _ _ _ _ a1 (hgeo k1 (by simp)).1
  obtain ⟨g2, m2, _, _, e2, c2⟩ := renderKey_hasGeometry _ _ _ _ a2 (hgeo k2 (by simp)).1
  obtain ⟨g3, m3, _, _, e3, c3⟩ := renderKey_hasGeometry _ _ _ _ a3 (hgeo k3 (by simp)).1
  have hnil : driverTrace [] = [] := rfl
  have hne2 : S2 ≠ S1 := Ne.symm hne
  have hinit1 : BoundState.initial.boundShaderId = UINT32_MAX := rfl
  simp only [driverTrace_cons, hnil, List.append_nil, List.countP_append]
  rw [c1, c2, c3, e1, e2]
  simp only [countP_bindShader, countP_bindProperties, hinit1, hk1.1, hk1.2, hk2.1, hk2.2,
    hk3.1, hk3.2]
  constructor
  · simp [hS1, hne2]
  · split_ifs <;> omega

/-- Remark on C8: sortedness is used.  In the unsorted list with shaders
`UINT32_MAX`, `UINT32_MAX`, 0 the first two keys find their shader id equal to
the initial bound id, and the pass issues a single `bindShader` call. -/
theorem unsorted_sentinel_bindShader_count :
    (unsortedSentinelScene.render VROThreadName.Renderer).map
        (fun segments => (driverTrace segments).countP isBindShader) = .ok 1 := rfl

/-! ## The node-scoped animation adapter (C9, C10) -/

/-- C9: `VROExecutableNodeAnimation::execute`.  When the adapter's node is
dead the call completes with no effect at all: no call on the inner animation
and no invocation of `onFinished`.  When the node is alive the only effect is
one `execute` call on the inner animation, with the adapter's own node (not
`ignoredNode`) and the same `onFinished`. -/
theorem execute_contract (self : VROExecutableNodeAnimation) (ignoredNode : Option VRONode)
    (onFinished : Callback) :
    (self._node.lock = none → self.execute ignoredNode onFinished = .ok []) ∧
    (∀ node inner, self._node.lock = some node → self._executableAnimation = some inner →
      self.execute ignoredNode onFinished =
        .ok [AnimationEffect.call inner (AnimationCall.execute node onFinished)]) := by
  constructor
  · intro hdead
    unfold VROExecutableNodeAnimation.execute
    rw [hdead]
  · intro node inner hlive hinner
    unfold VROExecutableNodeAnimation.execute
    rw [hlive]
    simp only [hinner]

/-- C9, at concrete inputs: a dead adapter and a live one, each called with
another node as `ignoredNode`. -/
theorem execute_contract_witness :
    deadAdapter.execute (some (litNode [2])) 9 = .ok [] ∧
    liveAdapter.execute (some (litNode [2])) 9 =
      .ok [AnimationEffect.call 3 (AnimationCall.execute (litNode [1]) 9)] :=
  ⟨(execute_contract deadAdapter (some (litNode [2])) 9).1 rfl,
   (execute_contract liveAdapter (some (litNode [2])) 9).2 (litNode [1]) 3 rfl rfl⟩

/-- C10: `VROExecutableNodeAnimation::copy`.  When the adapter's node is dead
the result is empty and the inner animation is not copied.  When the node is
alive the inner animation is copied once and the result is a new adapter on
the same node that wraps the pointer returned by that copy.  A completed call
returns the empty result exactly when the node is dead. -/
theorem copy_contract (self : VROExecutableNodeAnimation)
    (innerCopy : AnimationId → Option AnimationId) :
    (self._node.lock = none → self.copy innerCopy = .ok (none, [])) ∧
    (∀ node inner, self._node.lock = some node → self._executableAnimation = some inner →
      self.copy innerCopy =
        .ok (some { _node := WeakPtr.live node, _executableAnimation := innerCopy inner },
             [AnimationEffect.call inner AnimationCall.copy])) ∧
    (∀ result effects, self.copy innerCopy = .ok (result, effects) →
      (result = none ↔ self._node.lock = none)) := by
  refine ⟨?_, ?_, ?_⟩
  · intro hdead
    unfold VROExecutableNodeAnimation.copy
    rw [hdead]
  · intro node inner hlive hinner
    unfold VROExecutableNodeAnimation.copy
    rw [hlive]
    simp only [hinner]
  · intro result effects h
    unfold VROExecutableNodeAnimation.copy at h
    cases hl : self._node.lock with
    | none =>
      rw [hl] at h
      simp only [Except.ok.injEq, Prod.mk.injEq] at h
      simp [← h.1]
    | some node =>
      rw [hl] at h
      cases hi : self._executableAnimation with
      | none => simp [hi] at h
      | some inner =>
        simp only [hi, Except.ok.injEq, Prod.mk.injEq] at h
        simp [← h.1]

/-- C10, at concrete inputs: the copy of a dead adapter is empty; the copy of
a live adapter wrapping animation 3, whose copy is animation 4, is an adapter
on the same node wrapping animation 4. -/
theorem copy_contract_witness :
    deadAdapter.copy (fun inner => some (inner + 1)) = .ok (none, []) ∧
    liveAdapter.copy (fun inner => some (inner + 1)) =
      .ok (some { _node := WeakPtr.live (litNode [1]), _executableAnimation := some 4 },
           [AnimationEffect.call 3 AnimationCall.copy]) :=
  ⟨(copy_contract deadAdapter (fun inner => some (inner + 1))).1 rfl,
   (copy_contract liveAdapter (fun inner => some (inner + 1))).2.1 (litNode [1]) 3 rfl rfl⟩

/-! ## The pass theorems at concrete scenes -/

/-- C1 at `scenarioScene`, rendered on the renderer thread. -/
theorem render_bindShader_iff_witness :
    VROThreadName.Renderer = scenarioScene.restrictedThread ∧
    (∀ key ∈ scenarioScene.keys, key.resolves = true) ∧
    ∃ segments, scenarioScene.render VROThreadName.Renderer = .ok segments ∧
      segments.map KeyCalls.key = scenarioScene.keys ∧
      ∀ pre seg post, segments = pre ++ seg :: post → seg.key.hasGeometry = true →
        ∃ stBefore stAfter,
          renderKeys BoundState.initial (pre.map KeyCalls.key) = .ok (stBefore, pre) ∧
          renderKey stBefore seg.key = .ok (stAfter, seg.calls) ∧
          stBefore.boundShaderId = shaderBoundAfter pre ∧
          ((∃ call ∈ seg.calls, isBindShader call = true) ↔
            seg.key.shader ≠ stBefore.boundShaderId) ∧
          stAfter.boundShaderId = seg.key.shader ∧
          shaderBoundAfter (pre ++ [seg]) = seg.key.shader :=
  ⟨rfl, by decide, render_bindShader_iff scenarioScene VROThreadName.Renderer rfl (by decide)⟩

/-- C2 at `scenarioScene`, whose third key changes the shader and keeps the
material. -/
theorem render_bindProperties_iff_witness :
    VROThreadName.Renderer = scenarioScene.restrictedThread ∧
    (∀ key ∈ scenarioScene.keys, key.resolves = true) ∧
    ∃ segments, scenarioScene.render VROThreadName.Renderer = .ok segments ∧
      segments.map KeyCalls.key = scenarioScene.keys ∧
      ∀ pre seg post, segments = pre ++ seg :: post → seg.key.hasGeometry = true →
        ∃ stBefore stAfter,
          renderKeys BoundState.initial (pre.map KeyCalls.key) = .ok (stBefore, pre) ∧
          renderKey stBefore seg.key = .ok (stAfter, seg.calls) ∧
          stBefore.boundMaterialId = materialBoundAfter pre ∧
          ((∃ call ∈ seg.calls, isBindProperties call = true) ↔
            seg.key.material ≠ stBefore.boundMaterialId) ∧
          (seg.key.material = stBefore.boundMaterialId →
            ∀ call ∈ seg.calls, isBindProperties call = false) ∧
          stAfter.boundMaterialId = seg.key.material :=
  ⟨rfl, by decide, render_bindProperties_iff scenarioScene VROThreadName.Renderer rfl (by decide)⟩

/-- C3 at `drawScene`, which has unlit keys with a Constant, a Lambert and a
Phong material. -/
theorem render_draw_iff_witness :
    VROThreadName.Renderer = drawScene.restrictedThread ∧
    (∀ key ∈ drawScene.keys, key.resolves = true) ∧
    ∃ segments, drawScene.render VROThreadName.Renderer = .ok segments ∧
      segments.map KeyCalls.key = drawScene.keys ∧
      ∀ seg ∈ segments, ∀ geometry material,
        seg.key.node.getGeometry = some geometry →
        resolveMaterial geometry seg.key = some material →
        ((∃ call ∈ seg.calls, isDraw call = true) ↔
          (seg.key.node.getComputedLights ≠ [] ∨
            material.getLightingModel = VROLightingModel.Constant)) ∧
        (∀ call ∈ seg.calls, isDraw call = true →
          call = DriverCall.render seg.key.node seg.key.elementIndex material) ∧
        (seg.key.node.getComputedLights = [] →
          material.getLightingModel = VROLightingModel.Constant →
          DriverCall.render seg.key.node seg.key.elementIndex material ∈ seg.calls) ∧
        (seg.key.node.getComputedLights = [] →
          (material.getLightingModel = VROLightingModel.Phong ∨
           material.getLightingModel = VROLightingModel.Blinn ∨
           material.getLightingModel = VROLightingModel.Lambert) →
          ∀ call ∈ seg.calls, isDraw call = false) :=
  ⟨rfl, by decide, render_draw_iff drawScene VROThreadName.Renderer rfl (by decide)⟩

/-- C4 at `scenarioScene`, whose third key changes the shader on a node with
the lights already bound. -/
theorem render_bindShader_then_bindLights_witness :
    VROThreadName.Renderer = scenarioScene.restrictedThread ∧
    (∀ key ∈ scenarioScene.keys, key.resolves = true) ∧
    ∃ segments, scenarioScene.render VROThreadName.Renderer = .ok segments ∧
      segments.map KeyCalls.key = scenarioScene.keys ∧
      ∀ seg ∈ segments, (∃ call ∈ seg.calls, isBindShader call = true) →
        ∃ material rest,
          seg.calls = DriverCall.bindShader material ::
            DriverCall.bindLights seg.key.lights seg.key.node.getComputedLights material ::
            rest ∧
          ∀ call ∈ rest, isBindShader call = false :=
  ⟨rfl, by decide,
    render_bindShader_then_bindLights scenarioScene VROThreadName.Renderer rfl (by decide)⟩

/-- C5 at `lightsScene`, whose keys share the shader and differ in lights. -/
theorem render_bindLights_iff_witness :
    VROThreadName.Renderer = lightsScene.restrictedThread ∧
    (∀ key ∈ lightsScene.keys, key.resolves = true) ∧
    ∃ segments, lightsScene.render VROThreadName.Renderer = .ok segments ∧
      segments.map KeyCalls.key = lightsScene.keys ∧
      ∀ pre seg post, segments = pre ++ seg :: post → seg.key.hasGeometry = true →
        ∃ stBefore stAfter,
          renderKeys BoundState.initial (pre.map KeyCalls.key) = .ok (stBefore, pre) ∧
          renderKey stBefore seg.key = .ok (stAfter, seg.calls) ∧
          stBefore.boundLights = lightsBoundAfter pre ∧
          (seg.key.shader = stBefore.boundShaderId →
            ((∃ call ∈ seg.calls, isBindLights call = true) ↔
              seg.key.node.getComputedLights ≠ stBefore.boundLights)) ∧
          (∀ call ∈ seg.calls, isBindLights call = true →
            ∃ material, call = DriverCall.bindLights seg.key.lights
              seg.key.node.getComputedLights material) :=
  ⟨rfl, by decide, render_bindLights_iff lightsScene VROThreadName.Renderer rfl (by decide)⟩

/-- C6 at `drawScene`. -/
theorem render_draw_preceded_by_stencil_witness :
    VROThreadName.Renderer = drawScene.restrictedThread ∧
    (∀ key ∈ drawScene.keys, key.resolves = true) ∧
    ∃ segments, drawScene.render VROThreadName.Renderer = .ok segments ∧
      segments.map KeyCalls.key = drawScene.keys ∧
      (∀ a c b, driverTrace segments = a ++ c :: b → isDraw c = true →
        ∃ a1 d, a = a1 ++ [d] ∧ ∃ key ∈ drawScene.keys, ∃ material,
          c = DriverCall.render key.node key.elementIndex material ∧
          d = DriverCall.setPortalStencilRefBits key.portalStencilBits) ∧
      (∀ seg ∈ segments, ∀ a c b, seg.calls = a ++ c :: b → isDraw c = true →
        b = [] ∧ ∃ a1, a = a1 ++ [DriverCall.setPortalStencilRefBits seg.key.portalStencilBits]) ∧
      (driverTrace segments).countP isSetPortalStencilRefBits =
        (driverTrace segments).countP isDraw :=
  ⟨rfl, by decide,
    render_draw_preceded_by_stencil drawScene VROThreadName.Renderer rfl (by decide)⟩

/-- C7, as amended, at `scenarioScene`. -/
theorem render_rebind_counts_witness :
    VROThreadName.Renderer = scenarioScene.restrictedThread ∧
    (∀ key ∈ scenarioScene.keys, key.resolves = true) ∧
    ∃ segments, scenarioScene.render VROThreadName.Renderer = .ok segments ∧
      (driverTrace segments).countP isBindShader ≤
        maximalRuns (scenarioScene.keys.map VROSortKey.shader) ∧
      (driverTrace segments).countP isBindProperties ≤
        maximalRuns (scenarioScene.keys.map VROSortKey.material) ∧
      (driverTrace segments).countP isBindLights ≤
        (driverTrace segments).countP isBindShader +
          adjacentDiffs (scenarioScene.keys.map (fun key => key.node.getComputedLights)) + 1 ∧
      ((∀ key, firstWithGeometry scenarioScene.keys = some key → key.shader ≠ UINT32_MAX) →
        (driverTrace segments).countP isBindLights ≤
          (driverTrace segments).countP isBindShader +
            adjacentDiffs (scenarioScene.keys.map (fun key => key.node.getComputedLights))) :=
  ⟨rfl, by decide, render_rebind_counts scenarioScene VROThreadName.Renderer rfl (by decide)⟩

/-- C8 at the keys of `scenarioScene`: shaders 1, 1, 2 and material 5. -/
theorem scenario_bind_counts_witness :
    sortedOpaque [plainKey 1 5 [7], plainKey 1 5 [7], plainKey 2 5 [7]] = true ∧
    (∀ key ∈ [plainKey 1 5 [7], plainKey 1 5 [7], plainKey 2 5 [7]],
      key.hasGeometry = true ∧ key.resolves = true) ∧
    ∃ segments,
      VROScene.render { keys := [plainKey 1 5 [7], plainKey 1 5 [7], plainKey 2 5 [7]] }
        VROThreadName.Renderer = .ok segments ∧
      (driverTrace segments).countP isBindShader = 2 ∧
      (driverTrace segments).countP isBindProperties ≤ 2 :=
  ⟨by decide, by decide,
    scenario_bind_counts (plainKey 1 5 [7]) (plainKey 1 5 [7]) (plainKey 2 5 [7]) 1 2 5
      VROThreadName.Renderer rfl ⟨rfl, rfl⟩ ⟨rfl, rfl⟩ ⟨rfl, rfl⟩ (by decide) (by decide)
      (by decide) (by decide)⟩

/-- Remark on C5: the comparison that decides a light rebind is between light
lists, not between the `lights` fields of the keys.  In `maskScene` the two
keys differ in `lights` and share the node; lights are bound once. -/
theorem maskScene_bindLights_count :
    (maskScene.render VROThreadName.Renderer).map
        (fun segments => (driverTrace segments).countP isBindLights) = .ok 1 := rfl

/-! ## Operations on an adapter whose node is dead (C11) -/

/-- C11, as amended: on an adapter whose node is dead, `execute` and `copy`
complete without any call on the inner animation, and `copy` returns the empty
result.  `pause`, `resume`, `terminate` and `setDuration` do not consult the
node: on every adapter, whether its node is alive or dead, each makes exactly
one call of the same name on the inner animation, with the argument it was
given. -/
theorem dead_adapter_operations (self : VROExecutableNodeAnimation) (inner : AnimationId)
    (hinner : self._executableAnimation = some inner)
    (ignoredNode : Option VRONode) (onFinished : Callback)
    (innerCopy : AnimationId → Option AnimationId) (jumpToEnd : Bool)
    (durationSeconds : FloatBits) :
    (self._node.lock = none →
      self.execute ignoredNode onFinished = .ok [] ∧
      self.copy innerCopy = .ok (none, [])) ∧
    self.pause = .ok [AnimationEffect.call inner AnimationCall.pause] ∧
    self.resume = .ok [AnimationEffect.call inner AnimationCall.resume] ∧
    self.terminate jumpToEnd =
      .ok [AnimationEffect.call inner (AnimationCall.terminate jumpToEnd)] ∧
    self.setDuration durationSeconds =
      .ok [AnimationEffect.call inner (AnimationCall.setDuration durationSeconds)] := by
  refine ⟨?_, ?_, ?_, ?_, ?_⟩
  · intro hdead
    constructor
    · unfold VROExecutableNodeAnimation.execute
      rw [hdead]
    · unfold VROExecutableNodeAnimation.copy
      rw [hdead]
  · unfold VROExecutableNodeAnimation.pause VROExecutableNodeAnimation.delegate
    rw [hinner]
  · unfold VROExecutableNodeAnimation.resume VROExecutableNodeAnimation.delegate
    rw [hinner]
  · unfold VROExecutableNodeAnimation.terminate VROExecutableNodeAnimation.delegate
    rw [hinner]
  · unfold VROExecutableNodeAnimation.setDuration VROExecutableNodeAnimation.delegate
    rw [hinner]

/-- C11, as amended, at `deadAdapter`, whose node is dead, and at
`liveAdapter`, whose node is alive. -/
theorem dead_adapter_operations_witness :
    (deadAdapter._node.lock = none ∧
     deadAdapter._executableAnimation = some 3 ∧
     deadAdapter.execute none 9 = .ok [] ∧
     deadAdapter.copy (fun inner => some (inner + 1)) = .ok (none, []) ∧
     deadAdapter.pause = .ok [AnimationEffect.call 3 AnimationCall.pause] ∧
     deadAdapter.resume = .ok [AnimationEffect.call 3 AnimationCall.resume] ∧
     deadAdapter.terminate true =
       .ok [AnimationEffect.call 3 (AnimationCall.terminate true)] ∧
     deadAdapter.setDuration 5 =
       .ok [AnimationEffect.call 3 (AnimationCall.setDuration 5)]) ∧
    (liveAdapter._node.lock = some (litNode [1]) ∧
     liveAdapter._executableAnimation = some 3 ∧
     liveAdapter.pause = .ok [AnimationEffect.call 3 AnimationCall.pause] ∧
     liveAdapter.resume = .ok [AnimationEffect.call 3 AnimationCall.resume] ∧
     liveAdapter.terminate true =
       .ok [AnimationEffect.call 3 (AnimationCall.terminate true)] ∧
     liveAdapter.setDuration 5 =
       .ok [AnimationEffect.call 3 (AnimationCall.setDuration 5)]) :=
  have dead :=
    dead_adapter_operations deadAdapter 3 rfl none 9 (fun inner => some (inner + 1)) true 5
  have live :=
    dead_adapter_operations liveAdapter 3 rfl none 9 (fun inner => some (inner + 1)) true 5
  ⟨⟨rfl, rfl, (dead.1 rfl).1, (dead.1 rfl).2, dead.2⟩, ⟨rfl, rfl, live.2⟩⟩

/-- C11, counterexample: the node of `deadAdapter` is dead, yet `pause`,
`resume`, `terminate` and `setDuration` each make a call on its inner
animation, so they are not without effect on it. -/
theorem dead_adapter_still_delegates :
    deadAdapter._node.lock = none ∧
    deadAdapter.pause = .ok [AnimationEffect.call 3 AnimationCall.pause] ∧
    deadAdapter.resume = .ok [AnimationEffect.call 3 AnimationCall.resume] ∧
    deadAdapter.terminate false =
      .ok [AnimationEffect.call 3 (AnimationCall.terminate false)] ∧
    deadAdapter.setDuration 5 = .ok [AnimationEffect.call 3 (AnimationCall.setDuration 5)] ∧
    deadAdapter.pause ≠ .ok [] :=
  ⟨rfl, rfl, rfl, rfl, rfl, by
    intro h
    cases h⟩

/-! ## Keys that are not drawn (C13) -/

/-- C13, as amended: in a pass of `VROScene::render`, for a key with geometry
whose node has an empty computed light list and whose material variant is not
`Constant`, neither `setPortalStencilRefBits` nor the draw is issued.  The
binds are issued as for any key: `bindShader` if and only if the shader id
differs from the bound one, `bindProperties` if and only if the material id
differs from the bound one, `bindLights` if and only if the shader is rebound
or the bound light list is not empty. -/
theorem render_unlit_not_drawn (scene : VROScene) (thread : VROThreadName)
    (hthread : thread = scene.restrictedThread)
    (hres : ∀ key ∈ scene.keys, key.resolves = true) :
    ∃ segments, scene.render thread = .ok segments ∧
      segments.map KeyCalls.key = scene.keys ∧
      ∀ pre seg post, segments = pre ++ seg :: post →
        ∀ geometry material, seg.key.node.getGeometry = some geometry →
        resolveMaterial geometry seg.key = some material →
        seg.key.node.getComputedLights = [] →
        material.getLightingModel ≠ VROLightingModel.Constant →
        (∀ call ∈ seg.calls,
          isDraw call = false ∧ isSetPortalStencilRefBits call = false) ∧
        ∃ stBefore stAfter,
          renderKeys BoundState.initial (pre.map KeyCalls.key) = .ok (stBefore, pre) ∧
          renderKey stBefore seg.key = .ok (stAfter, seg.calls) ∧
          ((∃ call ∈ seg.calls, isBindShader call = true) ↔
            seg.key.shader ≠ stBefore.boundShaderId) ∧
          ((∃ call ∈ seg.calls, isBindProperties call = true) ↔
            seg.key.material ≠ stBefore.boundMaterialId) ∧
          ((∃ call ∈ seg.calls, isBindLights call = true) ↔
            (seg.key.shader ≠ stBefore.boundShaderId ∨ stBefore.boundLights ≠ [])) := by
  obtain ⟨st, segments, _, hrender⟩ := render_ok scene thread hthread hres
  refine ⟨segments, hrender, render_keys scene thread segments hrender, ?_⟩
  intro pre seg post hsplit geometry material hg hm hlights hmodel
  obtain ⟨stBefore, stAfter, h1, h2, _⟩ :=
    render_segment scene thread segments hrender pre post seg hsplit
  have hcalls : seg.calls = shaderCalls stBefore seg.key material
      ++ materialCalls stBefore seg.key material ++ drawCalls seg.key material := by
    rw [renderKey_geometry stBefore seg.key geometry material hg hm] at h2
    simp only [Except.ok.injEq, Prod.mk.injEq] at h2
    exact h2.2.symm
  have hnodraw : ¬ (seg.key.node.getComputedLights ≠ [] ∨
      material.getLightingModel = VROLightingModel.Constant) := by
    rintro (h | h)
    · exact h hlights
    · exact hmodel h
  refine ⟨?_, stBefore, stAfter, h1, h2, ?_, ?_, ?_⟩
  · intro call hmem
    have hd : seg.calls.countP isDraw = 0 := by
      rw [hcalls, countP_draw, if_neg hnodraw]
    have hs : seg.calls.countP isSetPortalStencilRefBits = 0 := by
      rw [hcalls, countP_setPortalStencilRefBits, if_neg hnodraw]
    rw [List.countP_eq_zero] at hd hs
    exact ⟨by simpa using hd call hmem, by simpa using hs call hmem⟩
  · rw [exists_mem_iff_countP_pos, hcalls, countP_bindShader]
    by_cases hc : seg.key.shader = stBefore.boundShaderId <;> simp [hc]
  · rw [exists_mem_iff_countP_pos, hcalls, countP_bindProperties]
    by_cases hc : seg.key.material = stBefore.boundMaterialId <;> simp [hc]
  · rw [exists_mem_iff_countP_pos, hcalls, countP_bindLights, hlights]
    by_cases hc : seg.key.shader = stBefore.boundShaderId <;>
      by_cases hl : stBefore.boundLights = [] <;> simp [hc, hl]

/-- C13, as amended, at `drawScene`, which has unlit keys with a Lambert and a
Phong material. -/
theorem render_unlit_not_drawn_witness :
    VROThreadName.Renderer = drawScene.restrictedThread ∧
    (∀ key ∈ drawScene.keys, key.resolves = true) ∧
    ∃ segments, drawScene.render VROThreadName.Renderer = .ok segments ∧
      segments.map KeyCalls.key = drawScene.keys ∧
      ∀ pre seg post, segments = pre ++ seg :: post →
        ∀ geometry material, seg.key.node.getGeometry = some geometry →
        resolveMaterial geometry seg.key = some material →
        seg.key.node.getComputedLights = [] →
        material.getLightingModel ≠ VROLightingModel.Constant →
        (∀ call ∈ seg.calls,
          isDraw call = false ∧ isSetPortalStencilRefBits call = false) ∧
        ∃ stBefore stAfter,
          renderKeys BoundState.initial (pre.map KeyCalls.key) = .ok (stBefore, pre) ∧
          renderKey stBefore seg.key = .ok (stAfter, seg.calls) ∧
          ((∃ call ∈ seg.calls, isBindShader call = true) ↔
            seg.key.shader ≠ stBefore.boundShaderId) ∧
          ((∃ call ∈ seg.calls, isBindProperties call = true) ↔
            seg.key.material ≠ stBefore.boundMaterialId) ∧
          ((∃ call ∈ seg.calls, isBindLights call = true) ↔
            (seg.key.shader ≠ stBefore.boundShaderId ∨ stBefore.boundLights ≠ [])) :=
  ⟨rfl, by decide, render_unlit_not_drawn drawScene VROThreadName.Renderer rfl (by decide)⟩

/-- C13, counterexample: the only key of `unlitPhongScene` is on a node without
lights and has a Phong material; it is not drawn, yet `bindShader`,
`bindLights` and `bindProperties` are issued for it. -/
theorem render_unlit_still_binds :
    (plainKey 1 5 []).node.getComputedLights = [] ∧
    phongMaterial.getLightingModel ≠ VROLightingModel.Constant ∧
    unlitPhongScene.render VROThreadName.Renderer =
      .ok [{ key := plainKey 1 5 [],
             calls := [DriverCall.bindShader phongMaterial,
                       DriverCall.bindLights 0 [] phongMaterial,
                       DriverCall.bindProperties phongMaterial] }] :=
  ⟨rfl, by decide, rfl⟩

/-! ## Binds before the first draw (C16) -/

/-- From the initial state, when no key carries the id `UINT32_MAX` as shader or
material, the trace of the loop is empty or starts with `bindShader`,
`bindLights`, `bindProperties`. -/
theorem renderKeys_initial_trace (keys : List VROSortKey) :
    ∀ (st2 : BoundState) (segments : List KeyCalls),
      renderKeys BoundState.initial keys = .ok (st2, segments) →
      (∀ key ∈ keys, key.shader ≠ UINT32_MAX ∧ key.material ≠ UINT32_MAX) →
      driverTrace segments = [] ∨
      ∃ material mask lights rest,
        driverTrace segments = DriverCall.bindShader material ::
          DriverCall.bindLights mask lights material ::
          DriverCall.bindProperties material :: rest := by
  induction keys with
  | nil =>
    intro st2 segments h _
    simp only [renderKeys, Except.ok.injEq, Prod.mk.injEq] at h
    rw [← h.2]
    exact Or.inl rfl
  | cons key rest ih =>
    intro st2 segments h hids
    obtain ⟨st1, calls, tail, h1, h2, hs⟩ := (renderKeys_cons_ok _ _ _ _ _).1 h
    subst hs
    rw [driverTrace_cons]
    rcases renderKey_cases _ st1 key calls h1 with ⟨_, hst, hcalls⟩ | ⟨g, m, hg, hm, _, _⟩
    · subst hst hcalls
      rw [List.nil_append]
      exact ih st2 tail h2 (fun k hk => hids k (List.mem_cons_of_mem _ hk))
    · rw [renderKey_geometry _ key g m hg hm] at h1
      simp only [Except.ok.injEq, Prod.mk.injEq] at h1
      obtain ⟨_, hcalls⟩ := h1
      subst hcalls
      obtain ⟨hshader, hmaterial⟩ := hids key (List.mem_cons_self _ _)
      refine Or.inr ⟨m, key.lights, key.node.getComputedLights,
        drawCalls key m ++ driverTrace tail, ?_⟩
      have hs : shaderCalls BoundState.initial key m =
          [DriverCall.bindShader m,
           DriverCall.bindLights key.lights key.node.getComputedLights m] := by
        have hne : key.shader ≠ BoundState.initial.boundShaderId := hshader
        unfold shaderCalls
        rw [if_pos hne]
      have hp : materialCalls BoundState.initial key m = [DriverCall.bindProperties m] := by
        have hne : key.material ≠ BoundState.initial.boundMaterialId := hmaterial
        unfold materialCalls
        rw [if_pos hne]
      rw [hs, hp]
      rfl

/-- The calls of the first key of a pass, when its node has a geometry: from
the initial state. -/
theorem renderKeys_first_key (key : VROSortKey) (rest : List VROSortKey) (st2 : BoundState)
    (segments : List KeyCalls) (geometry : VROGeometry) (material : VROMaterial)
    (h : renderKeys BoundState.initial (key :: rest) = .ok (st2, segments))
    (hg : key.node.getGeometry = some geometry)
    (hm : resolveMaterial geometry key = some material) :
    ∃ tail, segments =
      { key := key,
        calls := shaderCalls BoundState.initial key material
          ++ materialCalls BoundState.initial key material ++ drawCalls key material } :: tail := by
  obtain ⟨st1, calls, tail, h1, _, hs⟩ := (renderKeys_cons_ok _ _ _ _ _).1 h
  rw [renderKey_geometry _ key geometry material hg hm] at h1
  simp only [Except.ok.injEq, Prod.mk.injEq] at h1
  exact ⟨tail, by rw [hs, ← h1.2]⟩

/-- C16: in a pass of `VROScene::render` over keys none of which carries
`UINT32_MAX` as shader id or as material id, every draw has before it, in the
trace of the pass, a `bindShader`, a `bindLights` and a `bindProperties` call.
Without that condition: when the first key of the list has a geometry and is
drawn, its draw has no `bindShader` call before it if its shader id is
`UINT32_MAX`, and no `bindProperties` call before it if its material id is
`UINT32_MAX`. -/
theorem render_draw_preceded_by_binds (scene : VROScene) (thread : VROThreadName)
    (hthread : thread = scene.restrictedThread)
    (hres : ∀ key ∈ scene.keys, key.resolves = true) :
    ∃ segments, scene.render thread = .ok segments ∧
      ((∀ key ∈ scene.keys, key.shader ≠ UINT32_MAX ∧ key.material ≠ UINT32_MAX) →
        ∀ a c b, driverTrace segments = a ++ c :: b → isDraw c = true →
          (∃ x ∈ a, isBindShader x = true) ∧ (∃ x ∈ a, isBindLights x = true) ∧
          (∃ x ∈ a, isBindProperties x = true)) ∧
      (∀ key rest geometry material, scene.keys = key :: rest →
        key.node.getGeometry = some geometry → resolveMaterial geometry key = some material →
        (key.node.getComputedLights ≠ [] ∨
          material.getLightingModel = VROLightingModel.Constant) →
        ∃ a b, driverTrace segments =
            a ++ DriverCall.render key.node key.elementIndex material :: b ∧
          (key.shader = UINT32_MAX → ∀ x ∈ a, isBindShader x = false) ∧
          (key.material = UINT32_MAX → ∀ x ∈ a, isBindProperties x = false)) := by
  obtain ⟨st, segments, hloop, hrender⟩ := render_ok scene thread hthread hres
  refine ⟨segments, hrender, ?_, ?_⟩
  · intro hids a c b hsplit hc
    rcases renderKeys_initial_trace scene.keys st segments hloop hids with
      hnil | ⟨m, mask, lights, rest, htrace⟩
    · rw [hnil] at hsplit
      simp at hsplit
    · rw [htrace] at hsplit
      rcases a with _ | ⟨x, _ | ⟨y, _ | ⟨z, a3⟩⟩⟩
      · simp only [List.nil_append, List.cons.injEq] at hsplit
        rw [← hsplit.1] at hc
        cases hc
      · simp only [List.cons_append, List.nil_append, List.cons.injEq] at hsplit
        rw [← hsplit.2.1] at hc
        cases hc
      · simp only [List.cons_append, List.nil_append, List.cons.injEq] at hsplit
        rw [← hsplit.2.2.1] at hc
        cases hc
      · simp only [List.cons_append, List.cons.injEq] at hsplit
        obtain ⟨hx, hy, hz, _⟩ := hsplit
        subst hx hy hz
        exact ⟨⟨_, List.mem_cons_self _ _, rfl⟩,
          ⟨_, List.mem_cons_of_mem _ (List.mem_cons_self _ _), rfl⟩,
          ⟨_, List.mem_cons_of_mem _ (List.mem_cons_of_mem _ (List.mem_cons_self _ _)), rfl⟩⟩
  · intro key rest geometry material hkeys hg hm hdraw
    rw [hkeys] at hloop
    obtain ⟨tail, hsegs⟩ := renderKeys_first_key key rest st segments geometry material hloop hg hm
    refine ⟨shaderCalls BoundState.initial key material
        ++ materialCalls BoundState.initial key material
        ++ [DriverCall.setPortalStencilRefBits key.portalStencilBits],
      driverTrace tail, ?_, ?_, ?_⟩
    · rw [hsegs, driverTrace_cons]
      have hd : drawCalls key material =
          [DriverCall.setPortalStencilRefBits key.portalStencilBits,
           DriverCall.render key.node key.elementIndex material] := by
        unfold drawCalls
        rw [if_pos hdraw]
      simp only [hd, List.append_assoc, List.cons_append, List.nil_append]
    · intro hshader x hx
      have heq : key.shader = BoundState.initial.boundShaderId := hshader
      unfold shaderCalls materialCalls at hx
      simp only [heq, ne_eq, not_true_eq_false, if_false] at hx
      split_ifs at hx <;> simp at hx <;> (try rcases hx with h | h | h) <;>
        (try subst h) <;> rfl
    · intro hmaterial x hx
      have heq : key.material = BoundState.initial.boundMaterialId := hmaterial
      unfold shaderCalls materialCalls at hx
      simp only [heq, ne_eq, not_true_eq_false, if_false] at hx
      split_ifs at hx <;> simp at hx <;> (try rcases hx with h | h | h) <;>
        (try subst h) <;> rfl

/-- C16 at `sentinelScene`, whose only key has shader id `UINT32_MAX`. -/
theorem render_draw_preceded_by_binds_witness :
    VROThreadName.Renderer = sentinelScene.restrictedThread ∧
    (∀ key ∈ sentinelScene.keys, key.resolves = true) ∧
    ∃ segments, sentinelScene.render VROThreadName.Renderer = .ok segments ∧
      ((∀ key ∈ sentinelScene.keys, key.shader ≠ UINT32_MAX ∧ key.material ≠ UINT32_MAX) →
        ∀ a c b, driverTrace segments = a ++ c :: b → isDraw c = true →
          (∃ x ∈ a, isBindShader x = true) ∧ (∃ x ∈ a, isBindLights x = true) ∧
          (∃ x ∈ a, isBindProperties x = true)) ∧
      (∀ key rest geometry material, sentinelScene.keys = key :: rest →
        key.node.getGeometry = some geometry → resolveMaterial geometry key = some material →
        (key.node.getComputedLights ≠ [] ∨
          material.getLightingModel = VROLightingModel.Constant) →
        ∃ a b, driverTrace segments =
            a ++ DriverCall.render key.node key.elementIndex material :: b ∧
          (key.shader = UINT32_MAX → ∀ x ∈ a, isBindShader x = false) ∧
          (key.material = UINT32_MAX → ∀ x ∈ a, isBindProperties x = false)) :=
  ⟨rfl, by decide,
    render_draw_preceded_by_binds sentinelScene VROThreadName.Renderer rfl (by decide)⟩

/-- Remark on C16: the passes over `sentinelScene` and `sentinelMaterialScene`
draw their key with no `bindShader` call, respectively no `bindProperties`
call, in the whole trace. -/
theorem sentinel_scenes_traces :
    (sentinelScene.render VROThreadName.Renderer).map driverTrace =
      .ok [DriverCall.bindLights 0 [1] phongMaterial,
           DriverCall.bindProperties phongMaterial,
           DriverCall.setPortalStencilRefBits 0,
           DriverCall.render (litNode [1]) 0 phongMaterial] ∧
    (sentinelMaterialScene.render VROThreadName.Renderer).map driverTrace =
      .ok [DriverCall.bindShader phongMaterial,
           DriverCall.bindLights 0 [1] phongMaterial,
           DriverCall.setPortalStencilRefBits 0,
           DriverCall.render (litNode [1]) 0 phongMaterial] :=
  ⟨rfl, rfl⟩

/-! ## The transparency setter (C12) -/

/-- Remark on C12: `setTransparency` changes the member `_transparency` and no
other member; in particular the outgoing snapshot and the outgoing opacity are
after the call what they were before it. -/
theorem setTransparency_only_stores (self : VROMaterialMembers) (transparency : FloatBits) :
    self.setTransparency transparency =
      { _shininess := self._shininess,
        _fresnelExponent := self._fresnelExponent,
        _transparency := transparency,
        _transparencyMode := self._transparencyMode,
        _lightingModel := self._lightingModel,
        _litPerPixel := self._litPerPixel,
        _cullMode := self._cullMode,
        _blendMode := self._blendMode,
        _writesToDepthBuffer := self._writesToDepthBuffer,
        _readsFromDepthBuffer := self._readsFromDepthBuffer,
        _outgoing := self._outgoing,
        _outgoingOpacity := self._outgoingOpacity } ∧
    (self.setTransparency transparency).getTransparency = transparency ∧
    (self.setTransparency transparency).hasOutgoing = self.hasOutgoing ∧
    (self.setTransparency transparency).getOutgoingOpacity = self.getOutgoingOpacity :=
  ⟨rfl, rfl, rfl, rfl⟩

/-- C12, at the failing input: `opaqueMembers` has uniform transparency 1.0 and
no outgoing snapshot.  After `setTransparency` with 0.5 its transparency is
0.5, but it holds no outgoing snapshot (`hasOutgoing` is false, `_outgoing` is
null) and its outgoing opacity is the value it had before the call, which is
not 1.0. -/
theorem setTransparency_no_snapshot :
    opaqueMembers.getTransparency = float_1_0 ∧
    opaqueMembers.hasOutgoing = false ∧
    (opaqueMembers.setTransparency float_0_5).getTransparency = float_0_5 ∧
    (opaqueMembers.setTransparency float_0_5).hasOutgoing = false ∧
    (opaqueMembers.setTransparency float_0_5)._outgoing = none ∧
    (opaqueMembers.setTransparency float_0_5).getOutgoingOpacity =
      opaqueMembers.getOutgoingOpacity ∧
    (opaqueMembers.setTransparency float_0_5).getOutgoingOpacity ≠ float_1_0 :=
  ⟨rfl, rfl, rfl, rfl, rfl, rfl, by decide⟩

/-! ## Rebuilding the key list (C14) -/

/-- C14: `VROScene::updateSortKeys`, for an order `lt` of the keys that is a
strict weak order, leaves in the scene a key list that is a permutation of the
keys collected from the visible nodes during the call and in which no key
comes before a key that is less; the outcome does not depend on the key list
the scene had before. -/
theorem updateSortKeys_rebuilds (scene : VROScene) (thread : VROThreadName)
    (lt : VROSortKey → VROSortKey → Bool) (traversal : SortKeyTraversal)
    (hthread : thread = scene.restrictedThread)
    (hasymm : ∀ a b, lt a b = true → lt b a = false)
    (hneg : ∀ a b c, lt b a = false → lt c b = false → lt c a = false) :
    ∃ updated calls, scene.updateSortKeys thread lt traversal = .ok (updated, calls) ∧
      updated.keys.Perm traversal.visibleKeys ∧
      updated.keys.Pairwise (fun a b => lt b a = false) ∧
      ∀ prior : List VROSortKey,
        VROScene.updateSortKeys { scene with keys := prior } thread lt traversal =
          .ok (updated, calls) := by
  have hassert : passert_thread scene.restrictedThread thread = true := by
    unfold passert_thread
    simp [hthread]
  refine ⟨{ scene with
              keys := sortKeys lt traversal.visibleKeys,
              distanceOfFurthestObjectFromCamera := traversal.furthestDistanceFromCamera },
    [SceneCall.rootCollectLights, SceneCall.rootUpdateSortKeys,
     SceneCall.rootGetSortKeysForVisibleNodes], ?_, ?_, ?_, ?_⟩
  · unfold VROScene.updateSortKeys
    simp only [hassert]
    rfl
  · exact List.perm_insertionSort _ _
  · haveI : IsTotal VROSortKey (fun a b => lt b a = false) :=
      ⟨fun a b => by
        cases h : lt b a with
        | false => exact Or.inl rfl
        | true => exact Or.inr (hasymm b a h)⟩
    haveI : IsTrans VROSortKey (fun a b => lt b a = false) :=
      ⟨fun a b c hab hbc => hneg a b c hab hbc⟩
    exact List.sorted_insertionSort (fun a b => lt b a = false) traversal.visibleKeys
  · intro prior
    unfold VROScene.updateSortKeys
    simp only [hassert]
    rfl

/-- C14 at `scenarioScene` and `sampleTraversal`, for the order by shader id:
the three old keys are gone and the three collected keys are in order. -/
theorem updateSortKeys_rebuilds_witness :
    (∀ a b, shaderLt a b = true → shaderLt b a = false) ∧
    (∀ a b c, shaderLt b a = false → shaderLt c b = false → shaderLt c a = false) ∧
    scenarioScene.updateSortKeys VROThreadName.Renderer shaderLt sampleTraversal =
      .ok ({ keys := [plainKey 1 5 [7], plainKey 1 6 [8], plainKey 2 5 [7]],
             distanceOfFurthestObjectFromCamera := 7 },
           [SceneCall.rootCollectLights, SceneCall.rootUpdateSortKeys,
            SceneCall.rootGetSortKeysForVisibleNodes]) ∧
    ∃ updated calls,
      scenarioScene.updateSortKeys VROThreadName.Renderer shaderLt sampleTraversal =
        .ok (updated, calls) ∧
      updated.keys.Perm sampleTraversal.visibleKeys ∧
      updated.keys.Pairwise (fun a b => shaderLt b a = false) ∧
      ∀ prior : List VROSortKey,
        VROScene.updateSortKeys { scenarioScene with keys := prior } VROThreadName.Renderer
          shaderLt sampleTraversal = .ok (updated, calls) :=
  have hasymm : ∀ a b, shaderLt a b = true → shaderLt b a = false := by
    intro a b h
    simp only [shaderLt, decide_eq_true_eq, decide_eq_false_iff_not] at h ⊢
    omega
  have hneg : ∀ a b c, shaderLt b a = false → shaderLt c b = false → shaderLt c a = false := by
    intro a b c h1 h2
    simp only [shaderLt, decide_eq_false_iff_not] at h1 h2 ⊢
    omega
  ⟨hasymm, hneg, rfl,
    updateSortKeys_rebuilds scenarioScene VROThreadName.Renderer shaderLt sampleTraversal rfl
      hasymm hneg⟩

/-! ## Thread affinity (C15) -/

/-- Remark on C15: `renderBackground`, `render` and `updateSortKeys`, called on
a thread other than the one the scene is restricted to, stop at the thread
assertion and make no call. -/
theorem thread_assertion_on_entry (scene : VROScene) (thread : VROThreadName)
    (lt : VROSortKey → VROSortKey → Bool) (traversal : SortKeyTraversal)
    (hthread : thread ≠ scene.restrictedThread) :
    scene.renderBackground thread = .error Fault.threadAssertion ∧
    scene.render thread = .error Fault.threadAssertion ∧
    scene.updateSortKeys thread lt traversal = .error Fault.threadAssertion := by
  have hassert : passert_thread scene.restrictedThread thread = false := by
    unfold passert_thread
    simp [hthread]
  refine ⟨?_, ?_, ?_⟩
  · unfold VROScene.renderBackground
    simp [hassert]
  · unfold VROScene.render
    simp [hassert]
  · unfold VROScene.updateSortKeys
    simp [hassert]

/-- C15, at the failing input: `scenarioScene` is restricted to the renderer
thread; called on another thread, `renderBackground`, `render` and
`updateSortKeys` stop at the thread assertion, while `renderStencil` completes
and calls `clearStencil` on the driver. -/
theorem renderStencil_off_thread :
    passert_thread scenarioScene.restrictedThread VROThreadName.Undefined = false ∧
    scenarioScene.renderBackground VROThreadName.Undefined = .error Fault.threadAssertion ∧
    scenarioScene.render VROThreadName.Undefined = .error Fault.threadAssertion ∧
    scenarioScene.updateSortKeys VROThreadName.Undefined shaderLt sampleTraversal =
      .error Fault.threadAssertion ∧
    scenarioScene.renderStencil VROThreadName.Undefined =
      .ok [SceneCall.clearStencil 0, SceneCall.rootRenderStencil] :=
  ⟨rfl, rfl, rfl, rfl, rfl⟩

/-- Remark on C15: `renderStencil` makes the same calls on every thread. -/
theorem renderStencil_any_thread (scene : VROScene) (thread : VROThreadName) :
    scene.renderStencil thread = .ok [SceneCall.clearStencil 0, SceneCall.rootRenderStencil] :=
  rfl

end Viro
